import Mathlib

/-!
Verification of the reminder scheduling, delivery and recurrence engine of the
levi-bot repository.  The definitions below are a shallow embedding of the
Python sources (`database.py`, `scheduler.py`, `handlers.py`): SQL rows become
a list of `Reminder` records kept in insertion order, `scheduled_time_utc` is
an absolute UTC instant in seconds, and SQL `ORDER BY scheduled_time_utc ASC`
is modelled as a stable insertion sort by that key.  Effects (Telegram sends)
are modelled as an event log; a send that raises is an `ok = false` attempt.
-/

namespace LeviBot

/-- A row of the `reminders` table (`database.py`, `init_database`).
`schedTime` is `scheduled_time_utc` in seconds (the code stores ISO strings,
whose lexicographic comparison agrees with chronological order). -/
structure Reminder where
  rid : Nat
  userId : Nat
  chatId : Nat
  taskText : String
  notes : Option String
  location : Option String
  schedTime : Int
  userTimezone : String
  status : String
  initialReminderSent : Bool
  followUpSent : Bool
  recurrenceType : Option String
  recurrenceTime : Option String
deriving DecidableEq, Repr

/-- The reminders table: rows in insertion order plus the AUTOINCREMENT
counter (SQLite assigns ids starting from 1). -/
structure Store where
  rows : List Reminder
  nextId : Nat
deriving DecidableEq, Repr

/-- A database with no reminders, as created by `init_database`. -/
def emptyStore : Store := ⟨[], 1⟩

/-- `add_reminder` (database.py): INSERT with `status` defaulting to
`'pending'` and both sent flags written as literal 0; returns `lastrowid`. -/
def addReminder (userId chatId : Nat) (taskText : String) (schedTime : Int)
    (userTimezone : String) (notes location recurrenceType recurrenceTime : Option String)
    (s : Store) : Store × Nat :=
  let row : Reminder :=
    { rid := s.nextId, userId := userId, chatId := chatId,
      taskText := taskText, notes := notes, location := location,
      schedTime := schedTime, userTimezone := userTimezone,
      status := "pending", initialReminderSent := false, followUpSent := false,
      recurrenceType := recurrenceType, recurrenceTime := recurrenceTime }
  (⟨s.rows ++ [row], s.nextId + 1⟩, s.nextId)

/-- One step of the stable insertion sort modelling `ORDER BY
scheduled_time_utc ASC`: `a` is placed before the first element whose key is
not smaller, so rows with equal keys keep their relative (insertion) order. -/
def insertByTime (a : Reminder) : List Reminder → List Reminder
  | [] => [a]
  | b :: l => if a.schedTime ≤ b.schedTime then a :: b :: l else b :: insertByTime a l

/-- Stable sort by `scheduled_time_utc` (model of SQL `ORDER BY ... ASC`). -/
def sortByTime : List Reminder → List Reminder
  | [] => []
  | a :: l => insertByTime a (sortByTime l)

/-- Descending variant used for `ORDER BY scheduled_time_utc DESC`. -/
def insertByTimeDesc (a : Reminder) : List Reminder → List Reminder
  | [] => [a]
  | b :: l => if b.schedTime ≤ a.schedTime then a :: b :: l else b :: insertByTimeDesc a l

/-- Stable sort, descending by `scheduled_time_utc`. -/
def sortByTimeDesc : List Reminder → List Reminder
  | [] => []
  | a :: l => insertByTimeDesc a (sortByTimeDesc l)

/-- `get_pending_reminders` (database.py): rows with `status = 'pending'` and
`scheduled_time_utc <= before_time`, ordered by `scheduled_time_utc ASC`.
The SQL does not filter on `initial_reminder_sent`. -/
def getPendingReminders (beforeTime : Int) (s : Store) : List Reminder :=
  sortByTime (s.rows.filter fun r =>
    r.status == "pending" && decide (r.schedTime ≤ beforeTime))

/-- `get_follow_up_reminders` (database.py): rows with `status = 'pending'`,
`initial_reminder_sent = 1`, `follow_up_sent = 0` and `scheduled_time_utc <=
follow_up_after`, ordered ascending.  The SQL has no `recurrence_type`
condition. -/
def getFollowUpReminders (followUpAfter : Int) (s : Store) : List Reminder :=
  sortByTime (s.rows.filter fun r =>
    r.status == "pending" && r.initialReminderSent && !r.followUpSent
      && decide (r.schedTime ≤ followUpAfter))

/-- UPDATE ... WHERE id = ?: apply `f` to every row whose id matches. -/
def updateRows (f : Reminder → Reminder) (rid : Nat) (s : Store) : Store :=
  ⟨s.rows.map fun r => if r.rid = rid then f r else r, s.nextId⟩

/-- `mark_initial_reminder_sent` (database.py). -/
def markInitialReminderSent (rid : Nat) (s : Store) : Store :=
  updateRows (fun r => { r with initialReminderSent := true }) rid s

/-- `mark_follow_up_sent` (database.py). -/
def markFollowUpSent (rid : Nat) (s : Store) : Store :=
  updateRows (fun r => { r with followUpSent := true }) rid s

/-- `update_reminder_status` (database.py). -/
def updateReminderStatus (rid : Nat) (status : String) (s : Store) : Store :=
  updateRows (fun r => { r with status := status }) rid s

/-- `reschedule_reminder_for_followup` (database.py): new time, both sent
flags reset to 0. -/
def rescheduleReminderForFollowup (rid : Nat) (newTime : Int) (s : Store) : Store :=
  updateRows (fun r =>
    { r with schedTime := newTime, initialReminderSent := false, followUpSent := false }) rid s

/-- `delete_reminder` (database.py): DELETE WHERE id = ?, returns
`rowcount > 0`. -/
def deleteReminder (rid : Nat) (s : Store) : Store × Bool :=
  (⟨s.rows.filter fun r => !(r.rid == rid), s.nextId⟩,
    s.rows.any fun r => r.rid == rid)

/-- `get_all_pending_reminders` (database.py): all rows with
`status = 'pending'`, ordered by `scheduled_time_utc ASC`. -/
def getAllPendingReminders (s : Store) : List Reminder :=
  sortByTime (s.rows.filter fun r => r.status == "pending")

/-- `get_latest_pending_reminder` (database.py): the row for this user with
`status = 'pending'` and `follow_up_sent = 1` having the greatest
`scheduled_time_utc` (ORDER BY `scheduled_time_utc DESC` LIMIT 1). -/
def getLatestPendingReminder (userId : Nat) (s : Store) : Option Reminder :=
  (sortByTimeDesc (s.rows.filter fun r =>
    r.userId == userId && r.status == "pending" && r.followUpSent)).head?

/-! ### Local calendar arithmetic (model of Python `datetime`) -/

/-- Gregorian leap-year test. -/
def isLeap (y : Nat) : Bool := (y % 4 == 0 && y % 100 != 0) || y % 400 == 0

/-- Number of days in a month of the Gregorian calendar. -/
def daysInMonth (y m : Nat) : Nat :=
  if m = 2 then (if isLeap y then 29 else 28)
  else if m = 4 ∨ m = 6 ∨ m = 9 ∨ m = 11 then 30 else 31

/-- A local wall-clock datetime (the fields of an aware Python `datetime`
that the recurrence engine reads and writes). -/
structure LocalDT where
  year : Nat
  month : Nat
  day : Nat
  hour : Nat
  minute : Nat
deriving DecidableEq, Repr

/-- Days of the year strictly before month `m` (1-based). -/
def daysBeforeMonth (y m : Nat) : Nat :=
  (List.range (m - 1)).foldl (fun acc i => acc + daysInMonth y (i + 1)) 0

/-- Proleptic-Gregorian ordinal of a date, as in Python `date.toordinal`
(0001-01-01 has ordinal 1). -/
def toOrdinal (d : LocalDT) : Nat :=
  365 * (d.year - 1) + (d.year - 1) / 4 - (d.year - 1) / 100 + (d.year - 1) / 400
    + daysBeforeMonth d.year d.month + d.day

/-- Python `date.weekday()`: Monday = 0 ... Sunday = 6.  Ordinal 1
(0001-01-01) was a Monday. -/
def pyWeekday (d : LocalDT) : Nat := (toOrdinal d + 6) % 7

/-- `timedelta(days=1)` on the calendar fields. -/
def nextDay (d : LocalDT) : LocalDT :=
  if d.day < daysInMonth d.year d.month then { d with day := d.day + 1 }
  else if d.month < 12 then { d with month := d.month + 1, day := 1 }
  else { d with year := d.year + 1, month := 1, day := 1 }

/-- `timedelta(days=n)`. -/
def addDays : Nat → LocalDT → LocalDT
  | 0, d => d
  | n + 1, d => addDays n (nextDay d)

/-- The `while next_date.weekday() >= 5` loop of `schedule_next_recurrence`;
the loop runs at most twice, the fuel argument only bounds the recursion. -/
def skipWeekend : Nat → LocalDT → LocalDT
  | 0, d => d
  | n + 1, d => if 5 ≤ pyWeekday d then skipWeekend n (nextDay d) else d

/-- Python `str.split(sep)` for a one-character separator, on the character
list of the string: splitting never yields an empty list of groups. -/
def splitChars (sep : Char) : List Char → List (List Char)
  | [] => [[]]
  | c :: cs =>
    if c = sep then [] :: splitChars sep cs
    else
      match splitChars sep cs with
      | [] => [[c]]
      | g :: gs => (c :: g) :: gs

/-- Whitespace that Python `int(str)` strips around the number, ASCII range
(codepoints 9-13, 28-31 and 32; the non-ASCII whitespace codepoints CPython
also strips never occur in this system's data and are not modelled). -/
def isPyIntSpace (c : Char) : Bool :=
  c.toNat == 32 || (decide (9 ≤ c.toNat) && decide (c.toNat ≤ 13))
    || (decide (28 ≤ c.toNat) && decide (c.toNat ≤ 31))

/-- `str.strip()` as applied by Python `int()`: drop the surrounding
whitespace on both ends. -/
def stripEnds (cs : List Char) : List Char :=
  ((cs.dropWhile isPyIntSpace).reverse.dropWhile isPyIntSpace).reverse

/-- The digit tail of a Python integer literal after its first digit: each
further digit may be preceded by a single underscore (`1_0` is 10; `1__0`,
`1_` are errors). -/
def parseDigitsGrouped : List Char → Nat → Option Nat
  | [], acc => some acc
  | '_' :: cs, acc =>
    match cs with
    | c :: cs' =>
      if c.isDigit then parseDigitsGrouped cs' (acc * 10 + (c.toNat - 48)) else none
    | [] => none
  | c :: cs, acc =>
    if c.isDigit then parseDigitsGrouped cs (acc * 10 + (c.toNat - 48)) else none

/-- Python `int(str)`: optional surrounding whitespace, an optional single
sign, then ASCII decimal digits with single underscores between digits;
anything else raises `ValueError` (`none` here).  CPython additionally
accepts non-ASCII decimal digits; those forms never occur in this system's
data and are treated as errors. -/
def parsePyIntChars (cs0 : List Char) : Option Int :=
  match stripEnds cs0 with
  | [] => none
  | '+' :: c :: cs =>
    if c.isDigit then (parseDigitsGrouped cs (c.toNat - 48)).map Int.ofNat else none
  | '-' :: c :: cs =>
    if c.isDigit then (parseDigitsGrouped cs (c.toNat - 48)).map (fun n => -(n : Int))
    else none
  | c :: cs =>
    if c.isDigit then (parseDigitsGrouped cs (c.toNat - 48)).map Int.ofNat else none

/-- Parsing of `recurrence_time` in `schedule_next_recurrence`:
`hour, minute = map(int, recurrence_time.split(':'))` with a bare `except`
falling back to `9, 0` (a `None` value also raises and falls back, as does a
split that does not produce exactly two integer fields). -/
def parseRecurrenceTime (rt : Option String) : Int × Int :=
  match rt with
  | none => (9, 0)
  | some str =>
    match splitChars ':' str.toList with
    | [h, m] =>
      match parsePyIntChars h, parsePyIntChars m with
      | some hh, some mm => (hh, mm)
      | _, _ => (9, 0)
    | _ => (9, 0)

/-- Modelled from the spec: the IANA timezone database consulted through
`dateutil.tz` is not part of the repository; the zones in scope are
fixed-offset ("though Uzbekistan/Russia zones used here are fixed-offset"),
so a zone name maps to a constant offset in minutes. -/
def tzOffsetMinutes (tz : String) : Int :=
  if tz = "Asia/Tashkent" then 300
  else if tz = "Europe/Moscow" then 180
  else 0

/-- `astimezone(UTC)` of a local wall-clock instant, in seconds
(`second`/`microsecond` are zeroed by the `replace` in the source). -/
def toUtcSeconds (dt : LocalDT) (tz : String) : Int :=
  ((toOrdinal dt : Int) * 1440 + (dt.hour : Int) * 60 + (dt.minute : Int)
    - tzOffsetMinutes tz) * 60

/-- The `if/elif` ladder of `schedule_next_recurrence` computing `next_date`
from `now_local`; the final `else` returns `None`.  For `monthly`, Python
`replace(year, month)` raises `ValueError` exactly when the current day does
not exist in the target month, in which case the source retries with
`day=28`. -/
def computeNextDate (recurrenceType : String) (nowLocal : LocalDT) : Option LocalDT :=
  if recurrenceType = "daily" then some (addDays 1 nowLocal)
  else if recurrenceType = "weekdays" then some (skipWeekend 7 (addDays 1 nowLocal))
  else if recurrenceType = "weekly" then some (addDays 7 nowLocal)
  else if recurrenceType = "monthly" then
    let nextMonth := if nowLocal.month + 1 > 12 then 1 else nowLocal.month + 1
    let nextYear := if nowLocal.month + 1 > 12 then nowLocal.year + 1 else nowLocal.year
    if nowLocal.day ≤ daysInMonth nextYear nextMonth then
      some { nowLocal with year := nextYear, month := nextMonth }
    else
      some { nowLocal with year := nextYear, month := nextMonth, day := 28 }
  else none

/-- `schedule_next_recurrence` (database.py).  `localNow tz` is
`datetime.now(gettz(tz))`; a falsy `recurrence_type` (`None` or `""`) returns
`None` up front, and an unrecognized type returns `None` from the ladder; on
success one new reminder row is inserted via `add_reminder` with every content
field copied and the computed UTC time.  The outer `none` models the
uncaught `ValueError` raised by `next_date.replace(hour=hour, minute=minute,
...)` when the parsed hour is outside 0..23 or the minute outside 0..59: the
function then raises to its caller and inserts nothing (the `try` around the
parse does not cover this `replace`). -/
def scheduleNextRecurrence (localNow : String → LocalDT) (reminder : Reminder)
    (s : Store) : Option (Store × Option Nat) :=
  match reminder.recurrenceType with
  | none => some (s, none)
  | some rt =>
    if rt = "" then some (s, none)
    else
      let hm := parseRecurrenceTime reminder.recurrenceTime
      let nowLocal := localNow reminder.userTimezone
      match computeNextDate rt nowLocal with
      | none => some (s, none)
      | some nd =>
        if hm.1 < 0 ∨ 23 < hm.1 ∨ hm.2 < 0 ∨ 59 < hm.2 then none
        else
          let nextLocal : LocalDT := { nd with hour := hm.1.toNat, minute := hm.2.toNat }
          let added := addReminder reminder.userId reminder.chatId reminder.taskText
            (toUtcSeconds nextLocal reminder.userTimezone) reminder.userTimezone
            reminder.notes reminder.location (some rt) reminder.recurrenceTime s
          some (added.1, some added.2)

/-! ### Delivery scheduler, recovery and response handlers -/

/-- `FOLLOW_UP_DELAY_SECONDS` (config.py). -/
def followUpDelaySeconds : Int := 1800

/-- `max_delay_seconds = 2 * 3600` in `recover_pending_reminders`. -/
def gracePeriodSeconds : Int := 7200

/-- Observable effects of a pass: each Telegram `send_message` call, with the
reminder it concerns and whether the call succeeded or raised. -/
inductive Event where
  | initialAttempt (rid : Nat) (ok : Bool)
  | followUpAttempt (rid : Nat) (ok : Bool)
  | delayedAttempt (rid : Nat) (ok : Bool)
deriving DecidableEq, Repr

/-- `send_reminder` (scheduler.py) for one due reminder.  `ok` is the fate of
the `send_message` call: on failure the whole body is abandoned by the
`except` clause, so no flag or status is touched.  On success a recurring
reminder (`recurrence_type is not None`) gets its next occurrence scheduled
and is set to `completed`; a non-recurring one gets `initial_reminder_sent`
marked.  A `ValueError` raised inside `schedule_next_recurrence` is caught by
the same `except`, so the status update to `completed` is skipped too. -/
def sendReminder (localNow : String → LocalDT) (ok : Bool) (r : Reminder)
    (s : Store) : Store × List Event :=
  if ok then
    if r.recurrenceType.isSome then
      match scheduleNextRecurrence localNow r s with
      | none => (s, [.initialAttempt r.rid true])
      | some p =>
        (updateReminderStatus r.rid "completed" p.1, [.initialAttempt r.rid true])
    else
      (markInitialReminderSent r.rid s, [.initialAttempt r.rid true])
  else (s, [.initialAttempt r.rid false])

/-- `send_follow_up` (scheduler.py): on a successful send the reminder is
marked `follow_up_sent`; a raise leaves it untouched. -/
def sendFollowUp (ok : Bool) (r : Reminder) (s : Store) : Store × List Event :=
  if ok then (markFollowUpSent r.rid s, [.followUpAttempt r.rid true])
  else (s, [.followUpAttempt r.rid false])

/-- The first loop of `check_reminders`: each due row with
`initial_reminder_sent == 0` goes through `send_reminder`; the others are
skipped.  `sendOk rid` is whether this pass's send to that reminder
succeeds. -/
def processDue (localNow : String → LocalDT) (sendOk : Nat → Bool) :
    List Reminder → Store → Store × List Event
  | [], s => (s, [])
  | r :: rest, s =>
    if r.initialReminderSent then processDue localNow sendOk rest s
    else
      let step := sendReminder localNow (sendOk r.rid) r s
      let next := processDue localNow sendOk rest step.1
      (next.1, step.2 ++ next.2)

/-- The second loop of `check_reminders`: every fetched follow-up row goes
through `send_follow_up`. -/
def processFollowUps (sendOk : Nat → Bool) :
    List Reminder → Store → Store × List Event
  | [], s => (s, [])
  | r :: rest, s =>
    let step := sendFollowUp (sendOk r.rid) r s
    let next := processFollowUps sendOk rest step.1
    (next.1, step.2 ++ next.2)

/-- `check_reminders` (scheduler.py), one periodic pass at UTC instant `now`:
fetch due pending reminders, deliver first notifications, then fetch and send
follow-ups for rows due before `now - FOLLOW_UP_DELAY_SECONDS`. -/
def checkReminders (localNow : String → LocalDT) (sendOk : Nat → Bool)
    (now : Int) (s : Store) : Store × List Event :=
  let due := getPendingReminders now s
  let first := processDue localNow sendOk due s
  let fus := getFollowUpReminders (now - followUpDelaySeconds) first.1
  let second := processFollowUps sendOk fus first.1
  (second.1, first.2 ++ second.2)

/-- The body of the recovery loop in `recover_pending_reminders` for one
pending row: overdue beyond the grace period means `status := 'completed'`
with no send; overdue within the grace period means one delayed notification
and no store change; a future row is left alone. -/
def recoverOne (sendOk : Nat → Bool) (now : Int) (r : Reminder)
    (s : Store) : Store × List Event :=
  if r.schedTime ≤ now then
    if gracePeriodSeconds < now - r.schedTime then
      (updateReminderStatus r.rid "completed" s, [])
    else
      (s, [.delayedAttempt r.rid (sendOk r.rid)])
  else (s, [])

/-- The recovery loop over the `get_all_pending_reminders` snapshot. -/
def recoverList (sendOk : Nat → Bool) (now : Int) :
    List Reminder → Store → Store × List Event
  | [], s => (s, [])
  | r :: rest, s =>
    let step := recoverOne sendOk now r s
    let next := recoverList sendOk now rest step.1
    (next.1, step.2 ++ next.2)

/-- `recover_pending_reminders` (scheduler.py), run once at startup. -/
def recoverPendingReminders (sendOk : Nat → Bool) (now : Int)
    (s : Store) : Store × List Event :=
  recoverList sendOk now (getAllPendingReminders s) s

/-- `done_command` (handlers.py): after parsing the id argument the handler
unconditionally runs `update_reminder_status(reminder_id, 'done')`; the
invoking user's id is read but never compared to the reminder's owner. -/
def doneCommand (userId reminderId : Nat) (s : Store) : Store :=
  updateReminderStatus reminderId "done" s

/-- `delete_command` (handlers.py): after parsing the id argument the handler
runs `delete_reminder(reminder_id)` with no ownership check. -/
def deleteCommand (userId reminderId : Nat) (s : Store) : Store × Bool :=
  deleteReminder reminderId s

/-- `yes_no_callback_handler` (handlers.py); the free-text `yes_no_handler`
performs the same store operations for recognized affirmative/negative
tokens.  The target is resolved with `get_latest_pending_reminder`; "yes"
sets the status to `'done'` and, when the reminder is recurring, schedules
the next occurrence; "no" reschedules to `now + 30` minutes with both sent
flags cleared.  The handler has no `try`: a `ValueError` from
`schedule_next_recurrence` propagates to the framework after the `'done'`
update has already been committed, so the store keeps only that update. -/
def yesNoCallbackHandler (localNow : String → LocalDT) (now : Int)
    (userId : Nat) (action : String) (s : Store) : Store :=
  match getLatestPendingReminder userId s with
  | none => s
  | some reminder =>
    if action = "reminder_yes" then
      let s1 := updateReminderStatus reminder.rid "done" s
      if reminder.recurrenceType.isSome then
        match scheduleNextRecurrence localNow reminder s1 with
        | none => s1
        | some p => p.1
      else s1
    else if action = "reminder_no" then
      rescheduleReminderForFollowup reminder.rid (now + 1800) s
    else s

/-! ### The system's own operations as a transition relation -/

/-- One operation of the system itself: creating a reminder (all ingestion
paths call `add_reminder`, which writes both sent flags as 0), one periodic
scheduler pass, the startup recovery, or a yes/no response. -/
inductive SysStep : Store → Store → Prop where
  | add (userId chatId : Nat) (taskText : String) (schedTime : Int)
      (userTimezone : String) (notes location recurrenceType recurrenceTime : Option String)
      (s : Store) :
      SysStep s (addReminder userId chatId taskText schedTime userTimezone
        notes location recurrenceType recurrenceTime s).1
  | tick (localNow : String → LocalDT) (sendOk : Nat → Bool) (now : Int) (s : Store) :
      SysStep s (checkReminders localNow sendOk now s).1
  | recover (sendOk : Nat → Bool) (now : Int) (s : Store) :
      SysStep s (recoverPendingReminders sendOk now s).1
  | respond (localNow : String → LocalDT) (now : Int) (userId : Nat)
      (action : String) (s : Store) :
      SysStep s (yesNoCallbackHandler localNow now userId action s)

/-- Stores reachable from the empty database by the system's operations. -/
def Reachable (s : Store) : Prop := Relation.ReflTransGen SysStep emptyStore s

/-! ### Well-formedness of the store -/

/-- Invariants of the SQLite table: every id is below the AUTOINCREMENT
counter, and rows are listed in insertion order of strictly increasing ids
(so ids are unique and list order is insertion order). -/
def WfStore (s : Store) : Prop :=
  (∀ r ∈ s.rows, r.rid < s.nextId) ∧ s.rows.Pairwise (fun a b => a.rid < b.rid)

/-- Lookup of the row with a given id (unique in a well-formed store). -/
def rowById (s : Store) (rid : Nat) : Option Reminder :=
  s.rows.find? fun r => r.rid == rid

/-- Ascending-time order with ties broken by id, i.e. by insertion order in a
well-formed store. -/
def SchedBefore (a b : Reminder) : Prop :=
  a.schedTime < b.schedTime ∨ (a.schedTime = b.schedTime ∧ a.rid < b.rid)

/-! ### Lemmas about the stable sort -/

theorem mem_insertByTime {x a : Reminder} {l : List Reminder} :
    x ∈ insertByTime a l ↔ x = a ∨ x ∈ l := by
  induction l with
  | nil => simp [insertByTime]
  | cons b t ih =>
    by_cases h : a.schedTime ≤ b.schedTime
    · simp [insertByTime, h]
    · simp [insertByTime, h, ih]
      tauto

theorem perm_insertByTime (a : Reminder) (l : List Reminder) :
    List.Perm (insertByTime a l) (a :: l) := by
  induction l with
  | nil => simp [insertByTime]
  | cons b t ih =>
    by_cases h : a.schedTime ≤ b.schedTime
    · simp [insertByTime, h]
    · simp only [insertByTime, if_neg h]
      exact (ih.cons b).trans (List.Perm.swap a b t)

theorem perm_sortByTime (l : List Reminder) : List.Perm (sortByTime l) l := by
  induction l with
  | nil => simp [sortByTime]
  | cons a t ih =>
    exact (perm_insertByTime a (sortByTime t)).trans (ih.cons a)

theorem mem_sortByTime {x : Reminder} {l : List Reminder} :
    x ∈ sortByTime l ↔ x ∈ l :=
  (perm_sortByTime l).mem_iff

theorem pairwise_insertByTime {a : Reminder} {l : List Reminder}
    (hl : l.Pairwise SchedBefore) (ha : ∀ b ∈ l, a.rid < b.rid) :
    (insertByTime a l).Pairwise SchedBefore := by
  induction l with
  | nil => simp [insertByTime]
  | cons b t ih =>
    rcases List.pairwise_cons.mp hl with ⟨hbt, ht⟩
    by_cases h : a.schedTime ≤ b.schedTime
    · simp only [insertByTime, if_pos h]
      refine List.pairwise_cons.mpr ⟨?_, hl⟩
      intro c hc
      rcases lt_or_eq_of_le h with hlt | heq
      · rcases List.mem_cons.mp hc with rfl | hc'
        · exact Or.inl hlt
        · rcases hbt c hc' with hb' | hb'
          · exact Or.inl (hlt.trans hb')
          · exact Or.inl (hb'.1 ▸ hlt)
      · rcases List.mem_cons.mp hc with rfl | hc'
        · exact Or.inr ⟨heq, ha c (List.mem_cons_self c t)⟩
        · rcases hbt c hc' with hb' | hb'
          · exact Or.inl (heq ▸ hb')
          · exact Or.inr ⟨heq.trans hb'.1, ha c (List.mem_cons_of_mem b hc')⟩
    · simp only [insertByTime, if_neg h]
      refine List.pairwise_cons.mpr ⟨?_, ih ht fun c hc => ha c (List.mem_cons_of_mem b hc)⟩
      intro c hc
      rcases mem_insertByTime.mp hc with rfl | hc'
      · exact Or.inl (lt_of_not_le h)
      · exact hbt c hc'

theorem pairwise_sortByTime {l : List Reminder}
    (h : l.Pairwise fun a b => a.rid < b.rid) :
    (sortByTime l).Pairwise SchedBefore := by
  induction l with
  | nil => simp [sortByTime]
  | cons a t ih =>
    rcases List.pairwise_cons.mp h with ⟨hat, ht⟩
    exact pairwise_insertByTime (ih ht)
      fun b hb => hat b (mem_sortByTime.mp hb)

/-! ### Membership characterizations of the queries -/

theorem mem_getPendingReminders {r : Reminder} {t : Int} {s : Store} :
    r ∈ getPendingReminders t s ↔
      r ∈ s.rows ∧ r.status = "pending" ∧ r.schedTime ≤ t := by
  simp [getPendingReminders, mem_sortByTime, List.mem_filter, and_assoc]

theorem mem_getFollowUpReminders {r : Reminder} {t : Int} {s : Store} :
    r ∈ getFollowUpReminders t s ↔
      r ∈ s.rows ∧ r.status = "pending" ∧ r.initialReminderSent = true ∧
        r.followUpSent = false ∧ r.schedTime ≤ t := by
  simp [getFollowUpReminders, mem_sortByTime, List.mem_filter, and_assoc]

theorem mem_getAllPendingReminders {r : Reminder} {s : Store} :
    r ∈ getAllPendingReminders s ↔ r ∈ s.rows ∧ r.status = "pending" := by
  simp [getAllPendingReminders, mem_sortByTime, List.mem_filter]

/-! ### Uniqueness of ids and row lookup -/

theorem rid_inj {l : List Reminder} (h : l.Pairwise fun a b => a.rid < b.rid)
    {a b : Reminder} (ha : a ∈ l) (hb : b ∈ l) (hab : a.rid = b.rid) : a = b := by
  induction l with
  | nil => cases ha
  | cons c t ih =>
    rcases List.pairwise_cons.mp h with ⟨hct, ht⟩
    rcases List.mem_cons.mp ha with rfl | ha' <;> rcases List.mem_cons.mp hb with rfl | hb'
    · rfl
    · exact absurd hab (Nat.ne_of_lt (hct b hb'))
    · exact absurd hab.symm (Nat.ne_of_lt (hct a ha'))
    · exact ih ht ha' hb'

theorem find?_rid_of_mem {l : List Reminder}
    (hp : l.Pairwise fun a b => a.rid < b.rid)
    {r : Reminder} (hr : r ∈ l) : (l.find? fun x => x.rid == r.rid) = some r := by
  induction l with
  | nil => cases hr
  | cons c t ih =>
    rcases List.pairwise_cons.mp hp with ⟨hct, ht⟩
    rcases List.mem_cons.mp hr with rfl | hr'
    · simp [List.find?]
    · have hne : (c.rid == r.rid) = false := by
        simpa using Nat.ne_of_lt (hct r hr')
      simp only [List.find?, hne]
      exact ih ht hr'

theorem rowById_eq_some_of_mem {s : Store} (hw : WfStore s)
    {r : Reminder} (hr : r ∈ s.rows) : rowById s r.rid = some r :=
  find?_rid_of_mem hw.2 hr

theorem mem_of_rowById {s : Store} {rid : Nat} {r : Reminder}
    (h : rowById s rid = some r) : r ∈ s.rows ∧ r.rid = rid := by
  have hm := List.find?_some h
  exact ⟨List.mem_of_find?_eq_some h, by simpa using hm⟩

/-! ### Preservation of well-formedness by the store operations -/

theorem rows_updateRows (f : Reminder → Reminder) (rid : Nat) (s : Store) :
    (updateRows f rid s).rows = s.rows.map fun r => if r.rid = rid then f r else r := rfl

theorem nextId_updateRows (f : Reminder → Reminder) (rid : Nat) (s : Store) :
    (updateRows f rid s).nextId = s.nextId := rfl

theorem wfStore_updateRows {f : Reminder → Reminder} {rid : Nat} {s : Store}
    (hf : ∀ r, (f r).rid = r.rid) (hw : WfStore s) : WfStore (updateRows f rid s) := by
  have hrid : ∀ r : Reminder, (if r.rid = rid then f r else r).rid = r.rid := by
    intro r
    by_cases h : r.rid = rid <;> simp [h, hf]
  constructor
  · intro r hr
    rcases List.mem_map.mp hr with ⟨r0, hr0, rfl⟩
    rw [nextId_updateRows, hrid]
    exact hw.1 r0 hr0
  · refine List.Pairwise.map _ ?_ hw.2
    intro a b hab
    simpa [hrid] using hab

theorem wfStore_addReminder {s : Store} (hw : WfStore s)
    (userId chatId : Nat) (taskText : String) (schedTime : Int) (userTimezone : String)
    (notes location recurrenceType recurrenceTime : Option String) :
    WfStore (addReminder userId chatId taskText schedTime userTimezone
      notes location recurrenceType recurrenceTime s).1 := by
  constructor
  · intro r hr
    rcases List.mem_append.mp hr with hr' | hr'
    · exact Nat.lt_succ_of_lt (hw.1 r hr')
    · simp only [List.mem_singleton] at hr'
      subst hr'
      exact Nat.lt_succ_self _
  · refine List.pairwise_append.mpr ⟨hw.2, List.pairwise_singleton _ _, ?_⟩
    intro a ha b hb
    simp only [List.mem_singleton] at hb
    subst hb
    exact hw.1 a ha

/-- The three outcomes of `schedule_next_recurrence`: a raised `ValueError`
(`none`), a `None` return with the store untouched, or one inserted successor
row via `add_reminder` with every content field copied. -/
theorem scheduleNextRecurrence_spec (localNow : String → LocalDT)
    (r : Reminder) (s : Store) :
    scheduleNextRecurrence localNow r s = none ∨
    scheduleNextRecurrence localNow r s = some (s, none) ∨
    ∃ t : Int, scheduleNextRecurrence localNow r s =
      some ((addReminder r.userId r.chatId r.taskText t r.userTimezone
        r.notes r.location r.recurrenceType r.recurrenceTime s).1, some s.nextId) := by
  unfold scheduleNextRecurrence
  cases hrt : r.recurrenceType with
  | none => exact Or.inr (Or.inl rfl)
  | some rt =>
    by_cases h : rt = ""
    · simp only [if_pos h]
      exact Or.inr (Or.inl (by first | rfl | trivial))
    · simp only [if_neg h]
      cases computeNextDate rt (localNow r.userTimezone) with
      | none => exact Or.inr (Or.inl rfl)
      | some nd =>
        by_cases hb : (parseRecurrenceTime r.recurrenceTime).1 < 0 ∨
            23 < (parseRecurrenceTime r.recurrenceTime).1 ∨
            (parseRecurrenceTime r.recurrenceTime).2 < 0 ∨
            59 < (parseRecurrenceTime r.recurrenceTime).2
        · simp only [if_pos hb]
          exact Or.inl (by first | rfl | trivial)
        · simp only [if_neg hb]
          exact Or.inr (Or.inr ⟨_, rfl⟩)

theorem scheduleNext_some_store (localNow : String → LocalDT) (r : Reminder)
    {s : Store} {p : Store × Option Nat}
    (hp : scheduleNextRecurrence localNow r s = some p) :
    p.1 = s ∨ ∃ t : Int, p.1 = (addReminder r.userId r.chatId r.taskText t
      r.userTimezone r.notes r.location r.recurrenceType r.recurrenceTime s).1 := by
  rcases scheduleNextRecurrence_spec localNow r s with h | h | ⟨t, h⟩
  · rw [h] at hp
    cases hp
  · rw [h] at hp
    exact Or.inl (by rw [← Option.some.inj hp])
  · rw [h] at hp
    exact Or.inr ⟨t, by rw [← Option.some.inj hp]⟩

theorem wfStore_scheduleNext_some {s : Store} (hw : WfStore s)
    (localNow : String → LocalDT) (r : Reminder) {p : Store × Option Nat}
    (hp : scheduleNextRecurrence localNow r s = some p) : WfStore p.1 := by
  rcases scheduleNext_some_store localNow r hp with h | ⟨t, h⟩
  · rw [h]
    exact hw
  · rw [h]
    exact wfStore_addReminder hw _ _ _ _ _ _ _ _ _

theorem nextId_scheduleNext_some (localNow : String → LocalDT) (r : Reminder)
    {s : Store} {p : Store × Option Nat}
    (hp : scheduleNextRecurrence localNow r s = some p) :
    s.nextId ≤ p.1.nextId := by
  rcases scheduleNext_some_store localNow r hp with h | ⟨t, h⟩
  · rw [h]
  · rw [h]
    exact Nat.le_succ _

/-- Rows of the store after a non-raising `schedule_next_recurrence`: either
unchanged, or one appended row carrying `status = 'pending'`, both sent flags
false, the original recurrence type and an id equal to the old counter. -/
theorem rows_scheduleNext_some (localNow : String → LocalDT) (r : Reminder)
    {s : Store} {p : Store × Option Nat}
    (hp : scheduleNextRecurrence localNow r s = some p) :
    p.1.rows = s.rows ∨
      ∃ nr : Reminder, p.1.rows = s.rows ++ [nr] ∧
        nr.rid = s.nextId ∧ nr.status = "pending" ∧
        nr.initialReminderSent = false ∧ nr.followUpSent = false ∧
        nr.recurrenceType = r.recurrenceType := by
  rcases scheduleNext_some_store localNow r hp with h | ⟨t, h⟩
  · exact Or.inl (by rw [h])
  · right
    rw [h]
    exact ⟨_, rfl, rfl, rfl, rfl, rfl, rfl⟩

/-! ### The no-recurring-marked invariant (claim C1) -/

/-- No reminder with a recurrence type ever has `initial_reminder_sent` set:
first delivery of a recurring reminder goes through the `completed` branch of
`send_reminder`, never through `mark_initial_reminder_sent`. -/
def NoRecurringMarked (s : Store) : Prop :=
  ∀ r ∈ s.rows, r.recurrenceType.isSome → r.initialReminderSent = false

theorem noRecurringMarked_updateRows {f : Reminder → Reminder} {rid : Nat} {s : Store}
    (hf : ∀ r ∈ s.rows, r.rid = rid →
      ((f r).recurrenceType.isSome → (f r).initialReminderSent = false))
    (h : NoRecurringMarked s) : NoRecurringMarked (updateRows f rid s) := by
  intro r hr
  rcases List.mem_map.mp hr with ⟨r0, hr0, rfl⟩
  by_cases hc : r0.rid = rid
  · simpa [hc] using hf r0 hr0 hc
  · simpa [hc] using h r0 hr0

theorem noRecurringMarked_addReminder {s : Store} (h : NoRecurringMarked s)
    (userId chatId : Nat) (taskText : String) (schedTime : Int) (userTimezone : String)
    (notes location recurrenceType recurrenceTime : Option String) :
    NoRecurringMarked (addReminder userId chatId taskText schedTime userTimezone
      notes location recurrenceType recurrenceTime s).1 := by
  intro r hr
  rcases List.mem_append.mp hr with hr' | hr'
  · exact h r hr'
  · simp only [List.mem_singleton] at hr'
    subst hr'
    intro
    rfl

theorem noRecurringMarked_scheduleNext_some {s : Store} (h : NoRecurringMarked s)
    (localNow : String → LocalDT) (r : Reminder) {p : Store × Option Nat}
    (hp : scheduleNextRecurrence localNow r s = some p) : NoRecurringMarked p.1 := by
  rcases scheduleNext_some_store localNow r hp with heq | ⟨t, heq⟩
  · rw [heq]
    exact h
  · rw [heq]
    exact noRecurringMarked_addReminder h _ _ _ _ _ _ _ _ _

theorem noRecurringMarked_updateStatus {s : Store} (h : NoRecurringMarked s)
    (rid : Nat) (st : String) : NoRecurringMarked (updateReminderStatus rid st s) :=
  noRecurringMarked_updateRows (fun r hr _ => h r hr) h

theorem noRecurringMarked_markFollowUp {s : Store} (h : NoRecurringMarked s)
    (rid : Nat) : NoRecurringMarked (markFollowUpSent rid s) :=
  noRecurringMarked_updateRows (fun r hr _ => h r hr) h

theorem noRecurringMarked_reschedule {s : Store} (h : NoRecurringMarked s)
    (rid : Nat) (t : Int) : NoRecurringMarked (rescheduleReminderForFollowup rid t s) :=
  noRecurringMarked_updateRows (fun _ _ _ _ => rfl) h

/-! ### Equations for the per-reminder send steps -/

theorem sendReminder_failed (localNow : String → LocalDT) (r : Reminder) (s : Store) :
    sendReminder localNow false r s = (s, [Event.initialAttempt r.rid false]) := rfl

theorem sendReminder_sent_recurring_some (localNow : String → LocalDT) {r : Reminder}
    {s : Store} (h : r.recurrenceType.isSome = true) {p : Store × Option Nat}
    (hp : scheduleNextRecurrence localNow r s = some p) :
    sendReminder localNow true r s =
      (updateReminderStatus r.rid "completed" p.1,
        [Event.initialAttempt r.rid true]) := by
  simp [sendReminder, h, hp]

theorem sendReminder_sent_recurring_raise (localNow : String → LocalDT) {r : Reminder}
    {s : Store} (h : r.recurrenceType.isSome = true)
    (hp : scheduleNextRecurrence localNow r s = none) :
    sendReminder localNow true r s = (s, [Event.initialAttempt r.rid true]) := by
  simp [sendReminder, h, hp]

theorem sendReminder_sent_plain (localNow : String → LocalDT) {r : Reminder}
    (s : Store) (h : r.recurrenceType = none) :
    sendReminder localNow true r s =
      (markInitialReminderSent r.rid s, [Event.initialAttempt r.rid true]) := by
  simp [sendReminder, h]

theorem sendFollowUp_failed (r : Reminder) (s : Store) :
    sendFollowUp false r s = (s, [Event.followUpAttempt r.rid false]) := rfl

theorem sendFollowUp_sent (r : Reminder) (s : Store) :
    sendFollowUp true r s =
      (markFollowUpSent r.rid s, [Event.followUpAttempt r.rid true]) := rfl

/-- What the first scheduler loop relies on about its snapshot: every fetched
row has a known id, and when the snapshot says a row is non-recurring, so
does the live store for that id. -/
def DueOk (s : Store) (l : List Reminder) : Prop :=
  ∀ r ∈ l, r.rid < s.nextId ∧ (r.recurrenceType = none →
    ∀ row ∈ s.rows, row.rid = r.rid → row.recurrenceType = none)

theorem dueOk_updateRows {f : Reminder → Reminder} {rid : Nat} {s : Store}
    {l : List Reminder}
    (hf : ∀ x, (f x).rid = x.rid ∧ (f x).recurrenceType = x.recurrenceType)
    (h : DueOk s l) : DueOk (updateRows f rid s) l := by
  intro r hr
  obtain ⟨hlt, himp⟩ := h r hr
  refine ⟨hlt, ?_⟩
  intro hnone row hrow hrid
  rcases List.mem_map.mp hrow with ⟨row0, hrow0, rfl⟩
  by_cases hc : row0.rid = rid
  · rw [if_pos hc] at hrid ⊢
    rw [(hf row0).2]
    exact himp hnone row0 hrow0 (by rw [← (hf row0).1]; exact hrid)
  · rw [if_neg hc] at hrid ⊢
    exact himp hnone row0 hrow0 hrid

theorem dueOk_scheduleNext_some {s : Store} {l : List Reminder}
    (localNow : String → LocalDT) (r : Reminder) {p : Store × Option Nat}
    (hp : scheduleNextRecurrence localNow r s = some p)
    (h : DueOk s l) : DueOk p.1 l := by
  intro r' hr'
  obtain ⟨hlt, himp⟩ := h r' hr'
  refine ⟨lt_of_lt_of_le hlt (nextId_scheduleNext_some localNow r hp), ?_⟩
  intro hnone row hrow hrid
  rcases rows_scheduleNext_some localNow r hp with heq | ⟨nr, heq, hnrid, _⟩
  · rw [heq] at hrow
    exact himp hnone row hrow hrid
  · rw [heq] at hrow
    rcases List.mem_append.mp hrow with h1 | h1
    · exact himp hnone row h1 hrid
    · simp only [List.mem_singleton] at h1
      subst h1
      exact absurd (hrid ▸ hnrid) (by omega)

theorem processDue_inv (localNow : String → LocalDT) (sendOk : Nat → Bool) :
    ∀ (l : List Reminder) (s : Store), WfStore s → NoRecurringMarked s → DueOk s l →
      WfStore (processDue localNow sendOk l s).1 ∧
        NoRecurringMarked (processDue localNow sendOk l s).1
  | [], s, hw, hn, _ => ⟨hw, hn⟩
  | r :: rest, s, hw, hn, hd => by
    have hdr := hd r (List.mem_cons_self r rest)
    have hdrest : DueOk s rest := fun x hx => hd x (List.mem_cons_of_mem r hx)
    by_cases hi : r.initialReminderSent
    · simp only [processDue, if_pos hi]
      exact processDue_inv localNow sendOk rest s hw hn hdrest
    · simp only [processDue, if_neg hi]
      cases hok : sendOk r.rid with
      | false =>
        rw [sendReminder_failed]
        exact processDue_inv localNow sendOk rest s hw hn hdrest
      | true =>
        cases hrec : r.recurrenceType with
        | some rt =>
          cases hsched : scheduleNextRecurrence localNow r s with
          | none =>
            rw [sendReminder_sent_recurring_raise localNow (by rw [hrec]; rfl) hsched]
            exact processDue_inv localNow sendOk rest s hw hn hdrest
          | some p =>
            rw [sendReminder_sent_recurring_some localNow (by rw [hrec]; rfl) hsched]
            have hw1 : WfStore (updateReminderStatus r.rid "completed" p.1) :=
              wfStore_updateRows (fun _ => rfl)
                (wfStore_scheduleNext_some hw localNow r hsched)
            have hn1 := noRecurringMarked_updateStatus
              (noRecurringMarked_scheduleNext_some hn localNow r hsched) r.rid "completed"
            have hd1 : DueOk (updateReminderStatus r.rid "completed" p.1) rest :=
              dueOk_updateRows (fun _ => ⟨rfl, rfl⟩)
                (dueOk_scheduleNext_some localNow r hsched hdrest)
            exact processDue_inv localNow sendOk rest _ hw1 hn1 hd1
        | none =>
          rw [sendReminder_sent_plain localNow s hrec]
          have hw1 : WfStore (markInitialReminderSent r.rid s) :=
            wfStore_updateRows (fun _ => rfl) hw
          have hn1 : NoRecurringMarked (markInitialReminderSent r.rid s) := by
            refine noRecurringMarked_updateRows ?_ hn
            intro row hrow hrid hsome
            have hrownone := hdr.2 hrec row hrow hrid
            simp only [Reminder.recurrenceType] at hsome
            rw [hrownone] at hsome
            cases hsome
          have hd1 : DueOk (markInitialReminderSent r.rid s) rest :=
            dueOk_updateRows (fun _ => ⟨rfl, rfl⟩) hdrest
          exact processDue_inv localNow sendOk rest _ hw1 hn1 hd1

theorem processFollowUps_inv (sendOk : Nat → Bool) :
    ∀ (l : List Reminder) (s : Store), WfStore s → NoRecurringMarked s →
      WfStore (processFollowUps sendOk l s).1 ∧
        NoRecurringMarked (processFollowUps sendOk l s).1
  | [], s, hw, hn => ⟨hw, hn⟩
  | r :: rest, s, hw, hn => by
    simp only [processFollowUps]
    cases hok : sendOk r.rid with
    | false =>
      rw [sendFollowUp_failed]
      exact processFollowUps_inv sendOk rest s hw hn
    | true =>
      rw [sendFollowUp_sent]
      exact processFollowUps_inv sendOk rest _
        (wfStore_updateRows (fun _ => rfl) hw)
        (noRecurringMarked_markFollowUp hn r.rid)

theorem recoverList_inv (sendOk : Nat → Bool) (now : Int) :
    ∀ (l : List Reminder) (s : Store), WfStore s → NoRecurringMarked s →
      WfStore (recoverList sendOk now l s).1 ∧
        NoRecurringMarked (recoverList sendOk now l s).1
  | [], s, hw, hn => ⟨hw, hn⟩
  | r :: rest, s, hw, hn => by
    simp only [recoverList, recoverOne]
    by_cases h1 : r.schedTime ≤ now
    · by_cases h2 : gracePeriodSeconds < now - r.schedTime
      · simp only [if_pos h1, if_pos h2]
        exact recoverList_inv sendOk now rest _
          (wfStore_updateRows (fun _ => rfl) hw)
          (noRecurringMarked_updateStatus hn r.rid "completed")
      · simp only [if_pos h1, if_neg h2]
        exact recoverList_inv sendOk now rest s hw hn
    · simp only [if_neg h1]
      exact recoverList_inv sendOk now rest s hw hn

theorem checkReminders_inv {s : Store} (hw : WfStore s) (hn : NoRecurringMarked s)
    (localNow : String → LocalDT) (sendOk : Nat → Bool) (now : Int) :
    WfStore (checkReminders localNow sendOk now s).1 ∧
      NoRecurringMarked (checkReminders localNow sendOk now s).1 := by
  have hd : DueOk s (getPendingReminders now s) := by
    intro r hr
    have hmem := (mem_getPendingReminders.mp hr).1
    refine ⟨hw.1 r hmem, ?_⟩
    intro hnone row hrow hrid
    have : row = r := rid_inj hw.2 hrow hmem hrid
    rw [this, hnone]
  have h1 := processDue_inv localNow sendOk (getPendingReminders now s) s hw hn hd
  exact processFollowUps_inv sendOk _ _ h1.1 h1.2

theorem recoverPendingReminders_inv {s : Store} (hw : WfStore s)
    (hn : NoRecurringMarked s) (sendOk : Nat → Bool) (now : Int) :
    WfStore (recoverPendingReminders sendOk now s).1 ∧
      NoRecurringMarked (recoverPendingReminders sendOk now s).1 :=
  recoverList_inv sendOk now (getAllPendingReminders s) s hw hn

theorem yesNoCallbackHandler_inv {s : Store} (hw : WfStore s)
    (hn : NoRecurringMarked s) (localNow : String → LocalDT) (now : Int)
    (userId : Nat) (action : String) :
    WfStore (yesNoCallbackHandler localNow now userId action s) ∧
      NoRecurringMarked (yesNoCallbackHandler localNow now userId action s) := by
  unfold yesNoCallbackHandler
  cases getLatestPendingReminder userId s with
  | none => exact ⟨hw, hn⟩
  | some reminder =>
    by_cases hy : action = "reminder_yes"
    · simp only [if_pos hy]
      have hw1 : WfStore (updateReminderStatus reminder.rid "done" s) :=
        wfStore_updateRows (fun _ => rfl) hw
      have hn1 := noRecurringMarked_updateStatus hn reminder.rid "done"
      by_cases hrec : reminder.recurrenceType.isSome = true
      · simp only [if_pos hrec]
        cases hsched : scheduleNextRecurrence localNow reminder
            (updateReminderStatus reminder.rid "done" s) with
        | none => exact ⟨hw1, hn1⟩
        | some p =>
          exact ⟨wfStore_scheduleNext_some hw1 localNow reminder hsched,
            noRecurringMarked_scheduleNext_some hn1 localNow reminder hsched⟩
      · simp only [if_neg hrec]
        exact ⟨hw1, hn1⟩
    · simp only [if_neg hy]
      by_cases hno : action = "reminder_no"
      · simp only [if_pos hno]
        exact ⟨wfStore_updateRows (fun _ => rfl) hw,
          noRecurringMarked_reschedule hn reminder.rid (now + 1800)⟩
      · simp only [if_neg hno]
        exact ⟨hw, hn⟩

theorem addReminder_inv {s : Store} (hw : WfStore s) (hn : NoRecurringMarked s)
    (userId chatId : Nat) (taskText : String) (schedTime : Int) (userTimezone : String)
    (notes location recurrenceType recurrenceTime : Option String) :
    WfStore (addReminder userId chatId taskText schedTime userTimezone
        notes location recurrenceType recurrenceTime s).1 ∧
      NoRecurringMarked (addReminder userId chatId taskText schedTime userTimezone
        notes location recurrenceType recurrenceTime s).1 :=
  ⟨wfStore_addReminder hw _ _ _ _ _ _ _ _ _,
    noRecurringMarked_addReminder hn _ _ _ _ _ _ _ _ _⟩

/-- Every store reachable by the system's own operations is well-formed and
satisfies the no-recurring-marked invariant. -/
theorem reachable_inv {s : Store} (h : Reachable s) :
    WfStore s ∧ NoRecurringMarked s := by
  induction h with
  | refl =>
    refine ⟨⟨?_, ?_⟩, ?_⟩ <;> simp [emptyStore, NoRecurringMarked]
  | tail _ hstep ih =>
    cases hstep with
    | add u c task t tz notes loc rt rtime s0 => exact addReminder_inv ih.1 ih.2 _ _ _ _ _ _ _ _ _
    | tick localNow sendOk now s0 => exact checkReminders_inv ih.1 ih.2 localNow sendOk now
    | recover sendOk now s0 => exact recoverPendingReminders_inv ih.1 ih.2 sendOk now
    | respond localNow now u action s0 => exact yesNoCallbackHandler_inv ih.1 ih.2 localNow now u action

/-! ### Claim C1 -/

/-- Claim C1: in every state reachable from the empty store by the system's
own operations (add with both sent flags false, scheduler passes, startup
recovery, yes/no response handling), `get_follow_up_reminders` never returns
a reminder with a recurrence type: first delivery of a recurring reminder
sets `status = 'completed'` instead of `initial_reminder_sent`, and the
follow-up query requires `initial_reminder_sent = 1`. -/
theorem followUp_never_recurring_of_reachable (s : Store) (hs : Reachable s)
    (t : Int) (r : Reminder) (hr : r ∈ getFollowUpReminders t s) :
    r.recurrenceType = none := by
  obtain ⟨hw, hn⟩ := reachable_inv hs
  obtain ⟨hmem, _, hinit, _⟩ := mem_getFollowUpReminders.mp hr
  cases hrec : r.recurrenceType with
  | none => rfl
  | some rt =>
    have hfalse := hn r hmem (by rw [hrec]; rfl)
    rw [hinit] at hfalse
    cases hfalse

/-- A store obtained by adding one non-recurring reminder due at time 0. -/
def c1AddedStore : Store :=
  (addReminder 1 2 "task" 0 "UTC" none none none none emptyStore).1

/-- A fixed wall clock for scheduler passes in witnesses. -/
def witnessLocalNow : String → LocalDT := fun _ => ⟨2025, 1, 31, 12, 0⟩

/-- The store after one successful scheduler pass at instant 10. -/
def c1TickedStore : Store :=
  (checkReminders witnessLocalNow (fun _ => true) 10 c1AddedStore).1

/-- The delivered reminder as it appears after the pass. -/
def c1Row : Reminder :=
  { rid := 1, userId := 1, chatId := 2, taskText := "task", notes := none,
    location := none, schedTime := 0, userTimezone := "UTC",
    status := "pending", initialReminderSent := true, followUpSent := false,
    recurrenceType := none, recurrenceTime := none }

theorem followUp_never_recurring_of_reachable_witness :
    Reachable c1TickedStore ∧ c1Row ∈ getFollowUpReminders 10 c1TickedStore ∧
      c1Row.recurrenceType = none := by
  have hreach : Reachable c1TickedStore :=
    Relation.ReflTransGen.tail
      (Relation.ReflTransGen.tail Relation.ReflTransGen.refl
        (SysStep.add 1 2 "task" 0 "UTC" none none none none emptyStore))
      (SysStep.tick witnessLocalNow (fun _ => true) 10 c1AddedStore)
  have hmem : c1Row ∈ getFollowUpReminders 10 c1TickedStore := by decide
  exact ⟨hreach, hmem,
    followUp_never_recurring_of_reachable c1TickedStore hreach 10 c1Row hmem⟩

/-! ### Claim C2 -/

/-- A store state (not reachable by the system's operations) containing a
recurring reminder whose `initial_reminder_sent` flag is set. -/
def c2Row : Reminder :=
  { rid := 1, userId := 5, chatId := 6, taskText := "gym", notes := none,
    location := none, schedTime := 0, userTimezone := "UTC",
    status := "pending", initialReminderSent := true, followUpSent := false,
    recurrenceType := some "daily", recurrenceTime := some "09:00" }

/-- The one-row store around `c2Row`. -/
def c2Store : Store := ⟨[c2Row], 2⟩

/-- Claim C2 counterexample: the claim says `get_follow_up_reminders` never
returns a reminder whose recurrence type is not None for any store state, but
the SQL has no `recurrence_type` condition: on a store holding a recurring
pending reminder with `initial_reminder_sent = 1` the query returns it. -/
theorem getFollowUp_returns_recurring_cex :
    getFollowUpReminders 100 c2Store = [c2Row] ∧ c2Row.recurrenceType ≠ none := by
  exact ⟨rfl, by decide⟩

/-- Claim C2 (amended): `get_follow_up_reminders(threshold)` returns exactly
the reminders with `status = 'pending'`, `initial_reminder_sent = true`,
`follow_up_sent = false` and `scheduled_time_utc ≤ threshold`; there is no
`recurrence_type` filter in the query itself. -/
theorem getFollowUpReminders_exact (s : Store) (t : Int) :
    ∀ r : Reminder, r ∈ getFollowUpReminders t s ↔
      r ∈ s.rows ∧ r.status = "pending" ∧ r.initialReminderSent = true ∧
        r.followUpSent = false ∧ r.schedTime ≤ t :=
  fun _ => mem_getFollowUpReminders

/-! ### Claim C3 -/

/-- A pending reminder that has already had its initial notification. -/
def c3Row : Reminder :=
  { rid := 1, userId := 5, chatId := 6, taskText := "gym", notes := none,
    location := none, schedTime := 0, userTimezone := "UTC",
    status := "pending", initialReminderSent := true, followUpSent := false,
    recurrenceType := none, recurrenceTime := none }

/-- The one-row store around `c3Row`. -/
def c3Store : Store := ⟨[c3Row], 2⟩

/-- Claim C3 counterexample: the claim says `get_pending_reminders(asOf)`
returns exactly the rows with `initial_reminder_sent = false` (among other
conjuncts), but the SQL only filters on status and time: a pending row whose
initial notification was already sent is returned as well (the
`initial_reminder_sent == 0` test is applied later by `check_reminders`). -/
theorem getPending_ignores_initial_flag_cex :
    getPendingReminders 100 c3Store = [c3Row] ∧ c3Row.initialReminderSent = true := by
  exact ⟨rfl, rfl⟩

/-- Claim C3 (amended): `get_pending_reminders(asOf)` returns exactly the
reminders with `status = 'pending'` and `scheduled_time_utc ≤ asOf` — with no
condition on `initial_reminder_sent`, which is filtered by the caller
`check_reminders` — sorted by `scheduled_time_utc` ascending with ties broken
by insertion order (equivalently by id, since a well-formed store lists rows
in order of strictly increasing ids). -/
theorem getPendingReminders_exact (s : Store) (hw : WfStore s) (t : Int) :
    (∀ r : Reminder, r ∈ getPendingReminders t s ↔
        r ∈ s.rows ∧ r.status = "pending" ∧ r.schedTime ≤ t) ∧
      (getPendingReminders t s).Pairwise SchedBefore :=
  ⟨fun _ => mem_getPendingReminders,
    pairwise_sortByTime (hw.2.filter _)⟩

/-- Two equal-time rows and an earlier row, to exercise the tie-break. -/
def c3TieStore : Store :=
  ⟨[{ c3Row with rid := 1, schedTime := 5, initialReminderSent := false },
    { c3Row with rid := 2, schedTime := 5, initialReminderSent := false, taskText := "b" },
    { c3Row with rid := 3, schedTime := 3, initialReminderSent := false, taskText := "c" }], 4⟩

theorem getPendingReminders_exact_witness :
    WfStore c3TieStore ∧
      ((∀ r : Reminder, r ∈ getPendingReminders 10 c3TieStore ↔
          r ∈ c3TieStore.rows ∧ r.status = "pending" ∧ r.schedTime ≤ 10) ∧
        (getPendingReminders 10 c3TieStore).Pairwise SchedBefore) :=
  ⟨⟨by decide, by decide⟩, getPendingReminders_exact c3TieStore ⟨by decide, by decide⟩ 10⟩

/-! ### Row lookup under point updates -/

theorem find?_rid_map {F : Reminder → Reminder} (hF : ∀ x, (F x).rid = x.rid) :
    ∀ (l : List Reminder) (rid : Nat),
      ((l.map F).find? fun x => x.rid == rid) = (l.find? fun x => x.rid == rid).map F
  | [], _ => rfl
  | c :: t, rid => by
    simp only [List.map_cons, List.find?]
    rw [hF c]
    cases hc : (c.rid == rid) with
    | true => rfl
    | false => exact find?_rid_map hF t rid

theorem rowById_updateRows {f : Reminder → Reminder} (hf : ∀ x, (f x).rid = x.rid)
    (rid' : Nat) (s : Store) (rid : Nat) :
    rowById (updateRows f rid' s) rid =
      (rowById s rid).map fun x => if x.rid = rid' then f x else x := by
  unfold rowById updateRows
  exact find?_rid_map (fun x => by by_cases h : x.rid = rid' <;> simp [h, hf]) s.rows rid

theorem rowById_updateRows_ne {f : Reminder → Reminder} (hf : ∀ x, (f x).rid = x.rid)
    {rid' rid : Nat} (h : rid ≠ rid') (s : Store) :
    rowById (updateRows f rid' s) rid = rowById s rid := by
  rw [rowById_updateRows hf]
  cases hr : rowById s rid with
  | none => rfl
  | some x =>
    have hx := (mem_of_rowById hr).2
    simp [hx, h]

theorem rowById_updateStatus_ne {rid' rid : Nat} (h : rid ≠ rid') (st : String)
    (s : Store) : rowById (updateReminderStatus rid' st s) rid = rowById s rid :=
  rowById_updateRows_ne (f := fun x => { x with status := st }) (fun _ => rfl) h s

theorem rowById_markInitial_ne {rid' rid : Nat} (h : rid ≠ rid') (s : Store) :
    rowById (markInitialReminderSent rid' s) rid = rowById s rid :=
  rowById_updateRows_ne (f := fun x => { x with initialReminderSent := true })
    (fun _ => rfl) h s

theorem rowById_markFollowUp_ne {rid' rid : Nat} (h : rid ≠ rid') (s : Store) :
    rowById (markFollowUpSent rid' s) rid = rowById s rid :=
  rowById_updateRows_ne (f := fun x => { x with followUpSent := true })
    (fun _ => rfl) h s

theorem rowById_addReminder_of_lt {s : Store} {rid : Nat} (h : rid < s.nextId)
    (userId chatId : Nat) (taskText : String) (schedTime : Int) (userTimezone : String)
    (notes location recurrenceType recurrenceTime : Option String) :
    rowById (addReminder userId chatId taskText schedTime userTimezone
      notes location recurrenceType recurrenceTime s).1 rid = rowById s rid := by
  unfold rowById addReminder
  induction s.rows with
  | nil =>
    simp only [List.nil_append, List.find?]
    have : (s.nextId == rid) = false := by simpa using (Nat.ne_of_lt h).symm
    simp [this]
  | cons c t ih =>
    simp only [List.cons_append, List.find?]
    cases c.rid == rid with
    | true => rfl
    | false => exact ih

theorem rowById_scheduleNext_some_of_lt {s : Store} {rid : Nat} (h : rid < s.nextId)
    (localNow : String → LocalDT) (r : Reminder) {p : Store × Option Nat}
    (hp : scheduleNextRecurrence localNow r s = some p) :
    rowById p.1 rid = rowById s rid := by
  rcases scheduleNext_some_store localNow r hp with heq | ⟨t, heq⟩
  · rw [heq]
  · rw [heq]
    exact rowById_addReminder_of_lt h _ _ _ _ _ _ _ _ _

/-! ### Characterization of the recovery pass -/

/-- The staleness test of `recover_pending_reminders` for one snapshot row:
due, and overdue beyond the grace period. -/
def staleAt (now : Int) (r : Reminder) : Bool :=
  decide (r.schedTime ≤ now) && decide (gracePeriodSeconds < now - r.schedTime)

theorem recoverOne_store (sendOk : Nat → Bool) (now : Int) (r : Reminder) (s : Store) :
    (recoverOne sendOk now r s).1 =
      if staleAt now r then updateReminderStatus r.rid "completed" s else s := by
  unfold recoverOne staleAt
  by_cases h1 : r.schedTime ≤ now
  · by_cases h2 : gracePeriodSeconds < now - r.schedTime <;> simp [h1, h2]
  · simp [h1]

/-- The events of one recovery step do not depend on the store. -/
def recoveryEventsOf (sendOk : Nat → Bool) (now : Int) (r : Reminder) : List Event :=
  if r.schedTime ≤ now then
    if gracePeriodSeconds < now - r.schedTime then []
    else [Event.delayedAttempt r.rid (sendOk r.rid)]
  else []

theorem recoverOne_events (sendOk : Nat → Bool) (now : Int) (r : Reminder) (s : Store) :
    (recoverOne sendOk now r s).2 = recoveryEventsOf sendOk now r := by
  unfold recoverOne recoveryEventsOf
  by_cases h1 : r.schedTime ≤ now
  · by_cases h2 : gracePeriodSeconds < now - r.schedTime <;> simp [h1, h2]
  · simp [h1]

/-- The events of the recovery loop over a snapshot. -/
def recoveryEvents (sendOk : Nat → Bool) (now : Int) : List Reminder → List Event
  | [] => []
  | r :: l => recoveryEventsOf sendOk now r ++ recoveryEvents sendOk now l

theorem recoverList_events (sendOk : Nat → Bool) (now : Int) :
    ∀ (l : List Reminder) (s : Store),
      (recoverList sendOk now l s).2 = recoveryEvents sendOk now l
  | [], _ => rfl
  | r :: l, s => by
    simp only [recoverList, recoveryEvents, recoverOne_events]
    rw [recoverList_events sendOk now l]

theorem mem_recoveryEvents {sendOk : Nat → Bool} {now : Int} {rid : Nat} {b : Bool} :
    ∀ {l : List Reminder}, Event.delayedAttempt rid b ∈ recoveryEvents sendOk now l ↔
      ∃ r ∈ l, r.rid = rid ∧ b = sendOk r.rid ∧ r.schedTime ≤ now ∧
        now - r.schedTime ≤ gracePeriodSeconds
  | [] => by simp [recoveryEvents]
  | r :: l => by
    simp only [recoveryEvents, List.mem_append, mem_recoveryEvents (l := l)]
    constructor
    · rintro (h | ⟨x, hx, hprops⟩)
      · unfold recoveryEventsOf at h
        by_cases h1 : r.schedTime ≤ now
        · by_cases h2 : gracePeriodSeconds < now - r.schedTime
          · rw [if_pos h1, if_pos h2] at h
            cases h
          · rw [if_pos h1, if_neg h2] at h
            simp only [List.mem_singleton, Event.delayedAttempt.injEq] at h
            exact ⟨r, List.mem_cons_self r l, h.1.symm, h.2, h1, le_of_not_lt h2⟩
        · rw [if_neg h1] at h
          cases h
      · exact ⟨x, List.mem_cons_of_mem r hx, hprops⟩
    · rintro ⟨x, hx, hprops⟩
      rcases List.mem_cons.mp hx with rfl | hx'
      · left
        unfold recoveryEventsOf
        rw [if_pos hprops.2.2.1, if_neg (not_lt_of_le hprops.2.2.2)]
        simp [hprops.1, hprops.2.1]
      · exact Or.inr ⟨x, hx', hprops⟩

theorem recoverList_rows (sendOk : Nat → Bool) (now : Int) :
    ∀ (l : List Reminder) (s : Store),
      (recoverList sendOk now l s).1.rows = s.rows.map fun row =>
        if l.any fun r => r.rid == row.rid && staleAt now r then
          { row with status := "completed" } else row
  | [], s => by
    simp only [recoverList, List.any_nil]
    exact (List.map_id s.rows).symm
  | r :: l, s => by
    simp only [recoverList]
    rw [recoverList_rows sendOk now l, recoverOne_store]
    by_cases hst : staleAt now r
    · rw [if_pos hst]
      show ((updateReminderStatus r.rid "completed" s).rows.map _) = _
      rw [updateReminderStatus, rows_updateRows, List.map_map]
      refine List.map_congr_left ?_
      intro row hrow
      simp only [Function.comp_apply]
      by_cases hc : row.rid = r.rid
      · have hhead : (r.rid == row.rid && staleAt now r) = true := by simp [hc, hst]
        rw [if_pos hc, List.any_cons, hhead, Bool.true_or, if_pos rfl]
        by_cases hany : (l.any fun q =>
            q.rid == ({ row with status := "completed" } : Reminder).rid && staleAt now q)
        · rw [if_pos hany]
        · rw [if_neg hany]
      · have hhead : (r.rid == row.rid && staleAt now r) = false := by
          simp [Ne.symm hc]
        rw [if_neg hc, List.any_cons, hhead, Bool.false_or]
    · rw [if_neg hst]
      refine List.map_congr_left ?_
      intro row hrow
      have hhead : (r.rid == row.rid && staleAt now r) = false := by
        simp [hst]
      rw [List.any_cons, hhead, Bool.false_or]

theorem any_stale_snapshot {s : Store} (hw : WfStore s) {r : Reminder}
    (hr : r ∈ s.rows) (hp : r.status = "pending") (now : Int) :
    ((getAllPendingReminders s).any fun x => x.rid == r.rid && staleAt now x) =
      staleAt now r := by
  cases hst : staleAt now r with
  | true =>
    refine List.any_eq_true.mpr ⟨r, ?_, by simp [hst]⟩
    exact mem_getAllPendingReminders.mpr ⟨hr, hp⟩
  | false =>
    refine List.any_eq_false.mpr ?_
    intro x hx
    have hxr := (mem_getAllPendingReminders.mp hx).1
    by_cases hc : x.rid = r.rid
    · have : x = r := rid_inj hw.2 hxr hr hc
      subst this
      simp [hst]
    · simp [hc]

theorem recover_rowById {s : Store} (hw : WfStore s) {r : Reminder}
    (hr : r ∈ s.rows) (hp : r.status = "pending") (sendOk : Nat → Bool) (now : Int) :
    rowById (recoverPendingReminders sendOk now s).1 r.rid =
      some (if staleAt now r then { r with status := "completed" } else r) := by
  unfold recoverPendingReminders rowById
  rw [recoverList_rows]
  rw [find?_rid_map (fun x => by
    by_cases h : ((getAllPendingReminders s).any fun r' => r'.rid == x.rid && staleAt now r') <;>
      simp [h]) s.rows r.rid]
  rw [show (List.find? (fun x => x.rid == r.rid) s.rows) = some r from
    rowById_eq_some_of_mem hw hr]
  simp only [Option.map_some']
  rw [any_stale_snapshot hw hr hp now]

theorem recover_delayed_iff {s : Store} (hw : WfStore s) {r : Reminder}
    (hr : r ∈ s.rows) (hp : r.status = "pending") (sendOk : Nat → Bool) (now : Int)
    (b : Bool) :
    Event.delayedAttempt r.rid b ∈ (recoverPendingReminders sendOk now s).2 ↔
      (b = sendOk r.rid ∧ r.schedTime ≤ now ∧
        now - r.schedTime ≤ gracePeriodSeconds) := by
  unfold recoverPendingReminders
  rw [recoverList_events, mem_recoveryEvents]
  constructor
  · rintro ⟨x, hx, hxr, hprops⟩
    have hxr2 := (mem_getAllPendingReminders.mp hx).1
    have : x = r := rid_inj hw.2 hxr2 hr hxr
    subst this
    exact hprops
  · rintro ⟨hb, h1, h2⟩
    exact ⟨r, mem_getAllPendingReminders.mpr ⟨hr, hp⟩, rfl, hb, h1, h2⟩

/-! ### Characterization of the first scheduler loop -/

theorem sendReminder_events (localNow : String → LocalDT) (ok : Bool)
    (r : Reminder) (s : Store) :
    (sendReminder localNow ok r s).2 = [Event.initialAttempt r.rid ok] := by
  cases ok with
  | false => rfl
  | true =>
    by_cases h : r.recurrenceType.isSome = true
    · cases hp : scheduleNextRecurrence localNow r s with
      | none => simp [sendReminder, h, hp]
      | some p => simp [sendReminder, h, hp]
    · simp [sendReminder, h]

/-- The send attempts of one first-delivery loop depend only on the snapshot
and the transport outcomes, not on the evolving store. -/
def dueAttempts (sendOk : Nat → Bool) : List Reminder → List Event
  | [] => []
  | r :: l =>
    (if r.initialReminderSent then [] else [Event.initialAttempt r.rid (sendOk r.rid)])
      ++ dueAttempts sendOk l

theorem processDue_events (localNow : String → LocalDT) (sendOk : Nat → Bool) :
    ∀ (l : List Reminder) (s : Store),
      (processDue localNow sendOk l s).2 = dueAttempts sendOk l
  | [], _ => rfl
  | r :: l, s => by
    simp only [processDue, dueAttempts]
    by_cases hi : r.initialReminderSent
    · rw [if_pos hi, if_pos hi, processDue_events localNow sendOk l s, List.nil_append]
    · rw [if_neg hi, if_neg hi, sendReminder_events, processDue_events localNow sendOk l]

theorem mem_dueAttempts {sendOk : Nat → Bool} {rid : Nat} {b : Bool} :
    ∀ {l : List Reminder}, Event.initialAttempt rid b ∈ dueAttempts sendOk l ↔
      ∃ x ∈ l, x.rid = rid ∧ b = sendOk x.rid ∧ x.initialReminderSent = false
  | [] => by simp [dueAttempts]
  | x :: l => by
    simp only [dueAttempts, List.mem_append, mem_dueAttempts (l := l)]
    constructor
    · rintro (h | ⟨y, hy, hprops⟩)
      · by_cases hi : x.initialReminderSent
        · rw [if_pos hi] at h
          cases h
        · rw [if_neg hi] at h
          simp only [List.mem_singleton, Event.initialAttempt.injEq] at h
          exact ⟨x, List.mem_cons_self x l, h.1.symm, h.2,
            Bool.not_eq_true _ ▸ hi⟩
      · exact ⟨y, List.mem_cons_of_mem x hy, hprops⟩
    · rintro ⟨y, hy, hprops⟩
      rcases List.mem_cons.mp hy with rfl | hy'
      · left
        rw [if_neg (by rw [hprops.2.2]; exact Bool.false_ne_true)]
        simp [hprops.1, hprops.2.1]
      · exact Or.inr ⟨y, hy', hprops⟩

theorem processDue_wf (localNow : String → LocalDT) (sendOk : Nat → Bool) :
    ∀ (l : List Reminder) (s : Store), WfStore s →
      WfStore (processDue localNow sendOk l s).1
  | [], _, hw => hw
  | r :: l, s, hw => by
    simp only [processDue]
    by_cases hi : r.initialReminderSent
    · rw [if_pos hi]
      exact processDue_wf localNow sendOk l s hw
    · rw [if_neg hi]
      cases hok : sendOk r.rid with
      | false =>
        rw [sendReminder_failed]
        exact processDue_wf localNow sendOk l s hw
      | true =>
        cases hrec : r.recurrenceType with
        | some rt =>
          cases hsched : scheduleNextRecurrence localNow r s with
          | none =>
            rw [sendReminder_sent_recurring_raise localNow (by rw [hrec]; rfl) hsched]
            exact processDue_wf localNow sendOk l s hw
          | some p =>
            rw [sendReminder_sent_recurring_some localNow (by rw [hrec]; rfl) hsched]
            exact processDue_wf localNow sendOk l _
              (wfStore_updateRows (fun _ => rfl)
                (wfStore_scheduleNext_some hw localNow r hsched))
        | none =>
          rw [sendReminder_sent_plain localNow s hrec]
          exact processDue_wf localNow sendOk l _ (wfStore_updateRows (fun _ => rfl) hw)

theorem processDue_nextId (localNow : String → LocalDT) (sendOk : Nat → Bool) :
    ∀ (l : List Reminder) (s : Store),
      s.nextId ≤ (processDue localNow sendOk l s).1.nextId
  | [], _ => le_refl _
  | r :: l, s => by
    simp only [processDue]
    by_cases hi : r.initialReminderSent
    · rw [if_pos hi]
      exact processDue_nextId localNow sendOk l s
    · rw [if_neg hi]
      cases hok : sendOk r.rid with
      | false =>
        rw [sendReminder_failed]
        exact processDue_nextId localNow sendOk l s
      | true =>
        cases hrec : r.recurrenceType with
        | some rt =>
          cases hsched : scheduleNextRecurrence localNow r s with
          | none =>
            rw [sendReminder_sent_recurring_raise localNow (by rw [hrec]; rfl) hsched]
            exact processDue_nextId localNow sendOk l s
          | some p =>
            rw [sendReminder_sent_recurring_some localNow (by rw [hrec]; rfl) hsched]
            show s.nextId ≤ (processDue localNow sendOk l
              (updateReminderStatus r.rid "completed" p.1)).1.nextId
            exact le_trans (nextId_scheduleNext_some localNow r hsched)
              (processDue_nextId localNow sendOk l
                (updateReminderStatus r.rid "completed" p.1))
        | none =>
          rw [sendReminder_sent_plain localNow s hrec]
          show s.nextId ≤
            (processDue localNow sendOk l (markInitialReminderSent r.rid s)).1.nextId
          exact processDue_nextId localNow sendOk l (markInitialReminderSent r.rid s)

theorem processDue_rowById (localNow : String → LocalDT) (sendOk : Nat → Bool) :
    ∀ (l : List Reminder) (s : Store) (rid : Nat), rid < s.nextId →
      (∀ x ∈ l, x.rid = rid → sendOk x.rid = false) →
      rowById (processDue localNow sendOk l s).1 rid = rowById s rid
  | [], _, _, _, _ => rfl
  | r :: l, s, rid, hlt, hfail => by
    have hrest : ∀ x ∈ l, x.rid = rid → sendOk x.rid = false :=
      fun x hx => hfail x (List.mem_cons_of_mem r hx)
    simp only [processDue]
    by_cases hi : r.initialReminderSent
    · rw [if_pos hi]
      exact processDue_rowById localNow sendOk l s rid hlt hrest
    · rw [if_neg hi]
      cases hok : sendOk r.rid with
      | false =>
        rw [sendReminder_failed]
        exact processDue_rowById localNow sendOk l s rid hlt hrest
      | true =>
        have hne : rid ≠ r.rid := by
          intro h
          have := hfail r (List.mem_cons_self r l) h.symm
          rw [hok] at this
          cases this
        cases hrec : r.recurrenceType with
        | some rt =>
          cases hsched : scheduleNextRecurrence localNow r s with
          | none =>
            rw [sendReminder_sent_recurring_raise localNow (by rw [hrec]; rfl) hsched]
            exact processDue_rowById localNow sendOk l s rid hlt hrest
          | some p =>
            rw [sendReminder_sent_recurring_some localNow (by rw [hrec]; rfl) hsched]
            show rowById (processDue localNow sendOk l
                (updateReminderStatus r.rid "completed" p.1)).1 rid = rowById s rid
            rw [processDue_rowById localNow sendOk l
              (updateReminderStatus r.rid "completed" p.1)
              rid (by exact lt_of_lt_of_le hlt (nextId_scheduleNext_some localNow r hsched))
              hrest]
            rw [rowById_updateStatus_ne hne]
            exact rowById_scheduleNext_some_of_lt hlt localNow r hsched
        | none =>
          rw [sendReminder_sent_plain localNow s hrec]
          show rowById (processDue localNow sendOk l
              (markInitialReminderSent r.rid s)).1 rid = rowById s rid
          rw [processDue_rowById localNow sendOk l (markInitialReminderSent r.rid s)
            rid (by exact hlt) hrest]
          exact rowById_markInitial_ne hne s

theorem processFollowUps_wf (sendOk : Nat → Bool) :
    ∀ (l : List Reminder) (s : Store), WfStore s →
      WfStore (processFollowUps sendOk l s).1
  | [], _, hw => hw
  | r :: l, s, hw => by
    simp only [processFollowUps]
    cases hok : sendOk r.rid with
    | false =>
      rw [sendFollowUp_failed]
      exact processFollowUps_wf sendOk l s hw
    | true =>
      rw [sendFollowUp_sent]
      exact processFollowUps_wf sendOk l _ (wfStore_updateRows (fun _ => rfl) hw)

theorem processFollowUps_rowById (sendOk : Nat → Bool) :
    ∀ (l : List Reminder) (s : Store) (rid : Nat), (∀ x ∈ l, x.rid ≠ rid) →
      rowById (processFollowUps sendOk l s).1 rid = rowById s rid
  | [], _, _, _ => rfl
  | r :: l, s, rid, hne => by
    simp only [processFollowUps]
    cases hok : sendOk r.rid with
    | false =>
      rw [sendFollowUp_failed]
      exact processFollowUps_rowById sendOk l s rid
        fun x hx => hne x (List.mem_cons_of_mem r hx)
    | true =>
      rw [sendFollowUp_sent]
      show rowById (processFollowUps sendOk l (markFollowUpSent r.rid s)).1 rid = rowById s rid
      rw [processFollowUps_rowById sendOk l (markFollowUpSent r.rid s) rid
        fun x hx => hne x (List.mem_cons_of_mem r hx)]
      exact rowById_markFollowUp_ne (Ne.symm (hne r (List.mem_cons_self r l))) s

/-! ### Claim C5 -/

/-- Claim C5: for every pending reminder found by startup recovery with
`scheduled_time_utc ≤ now`: past the 2-hour grace period its status is set
to `completed` and no delayed notification is attempted for it; within the
grace period a delayed notification is attempted and the record is left
completely unchanged (in particular `markInitialSent` is not invoked).
Reminders scheduled in the future are untouched and get no notification. -/
theorem recovery_grace_policy (s : Store) (hw : WfStore s) (sendOk : Nat → Bool)
    (now : Int) (r : Reminder) (hr : r ∈ s.rows) (hp : r.status = "pending") :
    (r.schedTime ≤ now → gracePeriodSeconds < now - r.schedTime →
      rowById (recoverPendingReminders sendOk now s).1 r.rid =
          some { r with status := "completed" } ∧
        ∀ b, Event.delayedAttempt r.rid b ∉ (recoverPendingReminders sendOk now s).2) ∧
    (r.schedTime ≤ now → now - r.schedTime ≤ gracePeriodSeconds →
      rowById (recoverPendingReminders sendOk now s).1 r.rid = some r ∧
        Event.delayedAttempt r.rid (sendOk r.rid) ∈ (recoverPendingReminders sendOk now s).2) ∧
    (now < r.schedTime →
      rowById (recoverPendingReminders sendOk now s).1 r.rid = some r ∧
        ∀ b, Event.delayedAttempt r.rid b ∉ (recoverPendingReminders sendOk now s).2) := by
  refine ⟨?_, ?_, ?_⟩
  · intro h1 h2
    have hst : staleAt now r = true := by
      unfold staleAt
      rw [decide_eq_true h1, decide_eq_true h2]
      rfl
    constructor
    · rw [recover_rowById hw hr hp, hst]
      simp
    · intro b hmem
      obtain ⟨_, _, hle⟩ := (recover_delayed_iff hw hr hp sendOk now b).mp hmem
      exact absurd hle (not_le_of_lt h2)
  · intro h1 h2
    have hst : staleAt now r = false := by
      unfold staleAt
      rw [decide_eq_false (not_lt_of_le h2)]
      exact Bool.and_false _
    constructor
    · rw [recover_rowById hw hr hp, hst]
      simp
    · exact (recover_delayed_iff hw hr hp sendOk now (sendOk r.rid)).mpr ⟨rfl, h1, h2⟩
  · intro h3
    have hst : staleAt now r = false := by
      unfold staleAt
      rw [decide_eq_false (not_le_of_lt h3)]
      exact Bool.false_and _
    constructor
    · rw [recover_rowById hw hr hp, hst]
      simp
    · intro b hmem
      obtain ⟨_, hle, _⟩ := (recover_delayed_iff hw hr hp sendOk now b).mp hmem
      exact absurd hle (not_le_of_lt h3)

/-- A reminder 10 minutes overdue at startup instant 12000. -/
def c5Late : Reminder :=
  { rid := 1, userId := 5, chatId := 6, taskText := "soon", notes := none,
    location := none, schedTime := 11400, userTimezone := "UTC",
    status := "pending", initialReminderSent := false, followUpSent := false,
    recurrenceType := none, recurrenceTime := none }

/-- A reminder 3 hours overdue at startup instant 12000. -/
def c5Stale : Reminder :=
  { rid := 2, userId := 5, chatId := 6, taskText := "old", notes := none,
    location := none, schedTime := 1200, userTimezone := "UTC",
    status := "pending", initialReminderSent := false, followUpSent := false,
    recurrenceType := none, recurrenceTime := none }

/-- The recovery witness store. -/
def c5Store : Store := ⟨[c5Late, c5Stale], 3⟩

theorem recovery_grace_policy_witness :
    (WfStore c5Store ∧ c5Late ∈ c5Store.rows ∧ c5Late.status = "pending" ∧
      c5Stale ∈ c5Store.rows ∧ c5Stale.status = "pending") ∧
    (rowById (recoverPendingReminders (fun _ => true) 12000 c5Store).1 c5Late.rid =
        some c5Late ∧
      Event.delayedAttempt c5Late.rid true ∈
        (recoverPendingReminders (fun _ => true) 12000 c5Store).2) ∧
    (rowById (recoverPendingReminders (fun _ => true) 12000 c5Store).1 c5Stale.rid =
        some { c5Stale with status := "completed" } ∧
      ∀ b, Event.delayedAttempt c5Stale.rid b ∉
        (recoverPendingReminders (fun _ => true) 12000 c5Store).2) := by
  have hw : WfStore c5Store := ⟨by decide, by decide⟩
  have hlate := (recovery_grace_policy c5Store hw (fun _ => true) 12000 c5Late
    (by decide) rfl).2.1 (by decide) (by decide)
  have hstale := (recovery_grace_policy c5Store hw (fun _ => true) 12000 c5Stale
    (by decide) rfl).1 (by decide) (by decide)
  exact ⟨⟨hw, by decide, rfl, by decide, rfl⟩, hlate, hstale⟩

/-! ### Claim C7 -/

/-- Claim C7: in a single scheduler pass, a notification-send failure for one
due reminder leaves that reminder's record (flags and status) unchanged, so
it is still selected by the due query on the resulting store, and every other
due unsent reminder of the same pass still gets its own send attempt. -/
theorem send_failure_isolated (s : Store) (hw : WfStore s)
    (localNow : String → LocalDT) (sendOk : Nat → Bool) (now : Int)
    (r : Reminder) (hr : r ∈ getPendingReminders now s)
    (hinit : r.initialReminderSent = false) (hfail : sendOk r.rid = false) :
    rowById (checkReminders localNow sendOk now s).1 r.rid = some r ∧
    r ∈ getPendingReminders now (checkReminders localNow sendOk now s).1 ∧
    ∀ x ∈ getPendingReminders now s, x.initialReminderSent = false →
      Event.initialAttempt x.rid (sendOk x.rid) ∈
        (checkReminders localNow sendOk now s).2 := by
  obtain ⟨hmem, hpend, htime⟩ := mem_getPendingReminders.mp hr
  have hlt : r.rid < s.nextId := hw.1 r hmem
  have h1 : rowById (processDue localNow sendOk (getPendingReminders now s) s).1 r.rid =
      some r := by
    rw [processDue_rowById localNow sendOk _ s r.rid hlt
      (fun x _ hx => by rw [hx, hfail])]
    exact rowById_eq_some_of_mem hw hmem
  have hwf1 : WfStore (processDue localNow sendOk (getPendingReminders now s) s).1 :=
    processDue_wf localNow sendOk _ s hw
  have hmem1 : r ∈ (processDue localNow sendOk (getPendingReminders now s) s).1.rows :=
    (mem_of_rowById h1).1
  have hne : ∀ x ∈ getFollowUpReminders (now - followUpDelaySeconds)
      (processDue localNow sendOk (getPendingReminders now s) s).1, x.rid ≠ r.rid := by
    intro x hx hxr
    obtain ⟨hxmem, _, hxinit, _⟩ := mem_getFollowUpReminders.mp hx
    have hxeq : x = r := rid_inj hwf1.2 hxmem hmem1 hxr
    rw [hxeq, hinit] at hxinit
    cases hxinit
  have h2 : rowById (checkReminders localNow sendOk now s).1 r.rid = some r := by
    show rowById (processFollowUps sendOk
      (getFollowUpReminders (now - followUpDelaySeconds)
        (processDue localNow sendOk (getPendingReminders now s) s).1)
      (processDue localNow sendOk (getPendingReminders now s) s).1).1 r.rid = some r
    rw [processFollowUps_rowById sendOk _ _ r.rid hne]
    exact h1
  refine ⟨h2, ?_, ?_⟩
  · exact mem_getPendingReminders.mpr ⟨(mem_of_rowById h2).1, hpend, htime⟩
  · intro x hx hxinit
    show Event.initialAttempt x.rid (sendOk x.rid) ∈
      (processDue localNow sendOk (getPendingReminders now s) s).2 ++
        (processFollowUps sendOk
          (getFollowUpReminders (now - followUpDelaySeconds)
            (processDue localNow sendOk (getPendingReminders now s) s).1)
          (processDue localNow sendOk (getPendingReminders now s) s).1).2
    refine List.mem_append_left _ ?_
    rw [processDue_events]
    exact mem_dueAttempts.mpr ⟨x, hx, rfl, rfl, hxinit⟩

/-- First due reminder of the C7 witness pass; its send will fail. -/
def c7FailRow : Reminder :=
  { rid := 1, userId := 5, chatId := 6, taskText := "a", notes := none,
    location := none, schedTime := 0, userTimezone := "UTC",
    status := "pending", initialReminderSent := false, followUpSent := false,
    recurrenceType := none, recurrenceTime := none }

/-- Second due reminder of the C7 witness pass; its send succeeds. -/
def c7NextRow : Reminder :=
  { rid := 2, userId := 5, chatId := 6, taskText := "b", notes := none,
    location := none, schedTime := 10, userTimezone := "UTC",
    status := "pending", initialReminderSent := false, followUpSent := false,
    recurrenceType := none, recurrenceTime := none }

/-- The two-reminder witness store for C7. -/
def c7Store : Store := ⟨[c7FailRow, c7NextRow], 3⟩

/-- Transport outcome of the C7 witness pass: the send to reminder 1 raises. -/
def c7SendOk : Nat → Bool := fun rid => rid != 1

theorem send_failure_isolated_witness :
    (WfStore c7Store ∧ c7FailRow ∈ getPendingReminders 100 c7Store ∧
      c7FailRow.initialReminderSent = false ∧ c7SendOk c7FailRow.rid = false) ∧
    (rowById (checkReminders witnessLocalNow c7SendOk 100 c7Store).1 c7FailRow.rid =
        some c7FailRow ∧
      c7FailRow ∈ getPendingReminders 100 (checkReminders witnessLocalNow c7SendOk 100 c7Store).1 ∧
      ∀ x ∈ getPendingReminders 100 c7Store, x.initialReminderSent = false →
        Event.initialAttempt x.rid (c7SendOk x.rid) ∈
          (checkReminders witnessLocalNow c7SendOk 100 c7Store).2) := by
  have hw : WfStore c7Store := ⟨by decide, by decide⟩
  have hmem : c7FailRow ∈ getPendingReminders 100 c7Store := by decide
  exact ⟨⟨hw, hmem, rfl, rfl⟩,
    send_failure_isolated c7Store hw witnessLocalNow c7SendOk 100 c7FailRow hmem rfl rfl⟩

/-! ### Claim C9 -/

/-- Claim C9: a pending unsent reminder within the grace period at startup
gets the delayed recovery notification while no field of its record is
modified; it therefore still satisfies the first-delivery selection
predicate, and the next successful scheduler pass attempts the regular
initial notification for it as well — two notifications for one
occurrence. -/
theorem recovery_double_notification (s : Store) (hw : WfStore s)
    (sendOk1 sendOk2 : Nat → Bool) (localNow : String → LocalDT) (now now2 : Int)
    (r : Reminder) (hr : r ∈ s.rows) (hpend : r.status = "pending")
    (hinit : r.initialReminderSent = false)
    (h1 : r.schedTime ≤ now) (h2 : now - r.schedTime ≤ gracePeriodSeconds)
    (hok1 : sendOk1 r.rid = true) (hok2 : sendOk2 r.rid = true)
    (hnow2 : r.schedTime ≤ now2) :
    rowById (recoverPendingReminders sendOk1 now s).1 r.rid = some r ∧
    Event.delayedAttempt r.rid true ∈ (recoverPendingReminders sendOk1 now s).2 ∧
    r ∈ getPendingReminders now2 (recoverPendingReminders sendOk1 now s).1 ∧
    Event.initialAttempt r.rid true ∈
      (checkReminders localNow sendOk2 now2 (recoverPendingReminders sendOk1 now s).1).2 := by
  have hst : staleAt now r = false := by
    unfold staleAt
    rw [decide_eq_false (not_lt_of_le h2)]
    exact Bool.and_false _
  have hrow : rowById (recoverPendingReminders sendOk1 now s).1 r.rid = some r := by
    rw [recover_rowById hw hr hpend, hst]
    simp
  have hdel : Event.delayedAttempt r.rid true ∈ (recoverPendingReminders sendOk1 now s).2 :=
    (recover_delayed_iff hw hr hpend sendOk1 now true).mpr ⟨hok1.symm, h1, h2⟩
  have hsel : r ∈ getPendingReminders now2 (recoverPendingReminders sendOk1 now s).1 :=
    mem_getPendingReminders.mpr ⟨(mem_of_rowById hrow).1, hpend, hnow2⟩
  refine ⟨hrow, hdel, hsel, ?_⟩
  show Event.initialAttempt r.rid true ∈
    (processDue localNow sendOk2
      (getPendingReminders now2 (recoverPendingReminders sendOk1 now s).1)
      (recoverPendingReminders sendOk1 now s).1).2 ++
    (processFollowUps sendOk2
      (getFollowUpReminders (now2 - followUpDelaySeconds)
        (processDue localNow sendOk2
          (getPendingReminders now2 (recoverPendingReminders sendOk1 now s).1)
          (recoverPendingReminders sendOk1 now s).1).1)
      (processDue localNow sendOk2
        (getPendingReminders now2 (recoverPendingReminders sendOk1 now s).1)
        (recoverPendingReminders sendOk1 now s).1).1).2
  refine List.mem_append_left _ ?_
  rw [processDue_events]
  exact mem_dueAttempts.mpr ⟨r, hsel, rfl, hok2.symm, hinit⟩

theorem recovery_double_notification_witness :
    (WfStore c5Store ∧ c5Late ∈ c5Store.rows ∧ c5Late.status = "pending" ∧
      c5Late.initialReminderSent = false) ∧
    (rowById (recoverPendingReminders (fun _ => true) 12000 c5Store).1 c5Late.rid =
        some c5Late ∧
      Event.delayedAttempt c5Late.rid true ∈
        (recoverPendingReminders (fun _ => true) 12000 c5Store).2 ∧
      c5Late ∈ getPendingReminders 12000 (recoverPendingReminders (fun _ => true) 12000 c5Store).1 ∧
      Event.initialAttempt c5Late.rid true ∈
        (checkReminders witnessLocalNow (fun _ => true) 12000
          (recoverPendingReminders (fun _ => true) 12000 c5Store).1).2) := by
  have hw : WfStore c5Store := ⟨by decide, by decide⟩
  exact ⟨⟨hw, by decide, rfl, rfl⟩,
    recovery_double_notification c5Store hw (fun _ => true) (fun _ => true)
      witnessLocalNow 12000 12000 c5Late (by decide) rfl rfl (by decide) (by decide)
      rfl rfl (by decide)⟩

/-! ### Claim C4 -/

/-- The local wall clock on Jan 31, 2025, afternoon. -/
def jan31LocalNow : String → LocalDT := fun _ => ⟨2025, 1, 31, 15, 30⟩

/-- Every recognized recurrence type yields a next date from any local now. -/
theorem computeNextDate_isSome_of_recognized (x : LocalDT) {rt : String}
    (h : rt = "daily" ∨ rt = "weekdays" ∨ rt = "weekly" ∨ rt = "monthly") :
    ∃ d, computeNextDate rt x = some d := by
  rcases h with rfl | rfl | rfl | rfl
  · exact ⟨_, rfl⟩
  · exact ⟨_, rfl⟩
  · exact ⟨_, rfl⟩
  · unfold computeNextDate
    simp only [show ("monthly" = "daily") = False by simp,
      show ("monthly" = "weekdays") = False by simp,
      show ("monthly" = "weekly") = False by simp,
      show ("monthly" = "monthly") = True by simp, if_false, if_true]
    by_cases hd : x.day ≤ daysInMonth (if x.month + 1 > 12 then x.year + 1 else x.year)
        (if x.month + 1 > 12 then 1 else x.month + 1)
    · rw [if_pos hd]
      exact ⟨_, rfl⟩
    · rw [if_neg hd]
      exact ⟨_, rfl⟩

/-- A recurring reminder awaiting a yes/no response (status pending,
follow-up flag set so that `get_latest_pending_reminder` resolves to it). -/
def c4Row : Reminder :=
  { rid := 1, userId := 5, chatId := 6, taskText := "gym", notes := some "legs",
    location := some "club", schedTime := 0, userTimezone := "Asia/Tashkent",
    status := "pending", initialReminderSent := true, followUpSent := true,
    recurrenceType := some "daily", recurrenceTime := some "09:00" }

/-- The one-row store around `c4Row`. -/
def c4Store : Store := ⟨[c4Row], 2⟩

/-- The same awaiting reminder with the unrecognized type "yearly". -/
def c4yRow : Reminder := { c4Row with recurrenceType := some "yearly" }

/-- The one-row store around `c4yRow`. -/
def c4yStore : Store := ⟨[c4yRow], 2⟩

/-- Claim C4 counterexample: the claim says an affirmative reply to a
recurring reminder sets the fired occurrence's status to 'completed' and
always inserts one successor; the handler actually writes 'done'
(`update_reminder_status(reminder['id'], 'done')`), and for a non-None but
unrecognized recurrence type no successor is inserted at all. -/
theorem yes_recurring_sets_done_cex :
    (yesNoCallbackHandler jan31LocalNow 1000 5 "reminder_yes" c4Store).rows.map
        (fun x => x.status) = ["done", "pending"] ∧
    ("done" : String) ≠ "completed" ∧
    (yesNoCallbackHandler jan31LocalNow 1000 5 "reminder_yes" c4yStore).rows.length = 1 := by
  refine ⟨?_, ?_, ?_⟩ <;> decide

/-- Claim C4 (amended): for a reminder awaiting a response whose recurrence
type is one of daily/weekdays/weekly/monthly, an affirmative reply sets the
fired occurrence's status to 'done' (not 'completed'), and then: if its
recurrence_time parses to an in-range wall-clock time (hour 0..23 and minute
0..59; malformed strings fall back to 09:00), exactly one new reminder is
inserted — status pending, both sent flags false, all content fields copied,
scheduled at the next occurrence computed from the current local time at the
parsed time; if the parsed hour or minute is out of range,
`next_date.replace` raises an uncaught `ValueError` and no new reminder is
inserted, leaving only the 'done' update. -/
theorem yes_to_recurring_schedules_next (localNow : String → LocalDT) (now : Int)
    (userId : Nat) (s : Store) (r : Reminder)
    (hlatest : getLatestPendingReminder userId s = some r)
    (rt : String) (hrt : r.recurrenceType = some rt)
    (hrec : rt = "daily" ∨ rt = "weekdays" ∨ rt = "weekly" ∨ rt = "monthly")
    (ph pm : Int) (hpm : parseRecurrenceTime r.recurrenceTime = (ph, pm)) :
    (0 ≤ ph → ph ≤ 23 → 0 ≤ pm → pm ≤ 59 →
      ∃ nd : LocalDT, computeNextDate rt (localNow r.userTimezone) = some nd ∧
      ∃ nr : Reminder,
        (yesNoCallbackHandler localNow now userId "reminder_yes" s).rows =
          (s.rows.map fun row =>
            if row.rid = r.rid then { row with status := "done" } else row) ++ [nr] ∧
        nr.status = "pending" ∧ nr.initialReminderSent = false ∧
        nr.followUpSent = false ∧ nr.userId = r.userId ∧ nr.chatId = r.chatId ∧
        nr.taskText = r.taskText ∧ nr.notes = r.notes ∧ nr.location = r.location ∧
        nr.userTimezone = r.userTimezone ∧ nr.recurrenceType = some rt ∧
        nr.recurrenceTime = r.recurrenceTime ∧
        nr.schedTime = toUtcSeconds
          { nd with hour := (parseRecurrenceTime r.recurrenceTime).1.toNat,
                    minute := (parseRecurrenceTime r.recurrenceTime).2.toNat }
          r.userTimezone) ∧
    ((ph < 0 ∨ 23 < ph ∨ pm < 0 ∨ 59 < pm) →
      (yesNoCallbackHandler localNow now userId "reminder_yes" s).rows =
        s.rows.map fun row =>
          if row.rid = r.rid then { row with status := "done" } else row) := by
  have hne : rt ≠ "" := by
    rcases hrec with rfl | rfl | rfl | rfl <;> decide
  have hp1 : (parseRecurrenceTime r.recurrenceTime).1 = ph := by rw [hpm]
  have hp2 : (parseRecurrenceTime r.recurrenceTime).2 = pm := by rw [hpm]
  have hyes : yesNoCallbackHandler localNow now userId "reminder_yes" s =
      (match scheduleNextRecurrence localNow r (updateReminderStatus r.rid "done" s) with
        | none => updateReminderStatus r.rid "done" s
        | some p => p.1) := by
    unfold yesNoCallbackHandler
    simp only [hlatest, if_true]
    rw [if_pos (show r.recurrenceType.isSome = true by rw [hrt]; rfl)]
  obtain ⟨nd, hnd⟩ := computeNextDate_isSome_of_recognized (localNow r.userTimezone) hrec
  constructor
  · intro h0 h23 m0 m59
    refine ⟨nd, hnd, ?_⟩
    have hcond : ¬((parseRecurrenceTime r.recurrenceTime).1 < 0 ∨
        23 < (parseRecurrenceTime r.recurrenceTime).1 ∨
        (parseRecurrenceTime r.recurrenceTime).2 < 0 ∨
        59 < (parseRecurrenceTime r.recurrenceTime).2) := by
      rw [hp1, hp2]
      omega
    rw [hyes]
    unfold scheduleNextRecurrence
    simp only [hrt, if_neg hne, hnd, if_neg hcond]
    exact ⟨_, rfl, rfl, rfl, rfl, rfl, rfl, rfl, rfl, rfl, rfl, rfl, rfl, rfl⟩
  · intro hout
    have hcond : (parseRecurrenceTime r.recurrenceTime).1 < 0 ∨
        23 < (parseRecurrenceTime r.recurrenceTime).1 ∨
        (parseRecurrenceTime r.recurrenceTime).2 < 0 ∨
        59 < (parseRecurrenceTime r.recurrenceTime).2 := by
      rw [hp1, hp2]
      exact hout
    rw [hyes]
    unfold scheduleNextRecurrence
    simp only [hrt, if_neg hne, hnd, if_pos hcond]
    rfl

theorem yes_to_recurring_schedules_next_witness :
    (getLatestPendingReminder 5 c4Store = some c4Row ∧
      c4Row.recurrenceType = some "daily" ∧
      parseRecurrenceTime c4Row.recurrenceTime = (9, 0)) ∧
    (((0 : Int) ≤ 9 → (9 : Int) ≤ 23 → (0 : Int) ≤ 0 → (0 : Int) ≤ 59 →
      ∃ nd : LocalDT, computeNextDate "daily" (jan31LocalNow c4Row.userTimezone) = some nd ∧
      ∃ nr : Reminder,
        (yesNoCallbackHandler jan31LocalNow 1000 5 "reminder_yes" c4Store).rows =
          (c4Store.rows.map fun row =>
            if row.rid = c4Row.rid then { row with status := "done" } else row) ++ [nr] ∧
        nr.status = "pending" ∧ nr.initialReminderSent = false ∧
        nr.followUpSent = false ∧ nr.userId = c4Row.userId ∧ nr.chatId = c4Row.chatId ∧
        nr.taskText = c4Row.taskText ∧ nr.notes = c4Row.notes ∧
        nr.location = c4Row.location ∧ nr.userTimezone = c4Row.userTimezone ∧
        nr.recurrenceType = some "daily" ∧ nr.recurrenceTime = c4Row.recurrenceTime ∧
        nr.schedTime = toUtcSeconds
          { nd with hour := (parseRecurrenceTime c4Row.recurrenceTime).1.toNat,
                    minute := (parseRecurrenceTime c4Row.recurrenceTime).2.toNat }
          c4Row.userTimezone) ∧
     ((9 : Int) < 0 ∨ (23 : Int) < 9 ∨ (0 : Int) < 0 ∨ (59 : Int) < 0 →
      (yesNoCallbackHandler jan31LocalNow 1000 5 "reminder_yes" c4Store).rows =
        c4Store.rows.map fun row =>
          if row.rid = c4Row.rid then { row with status := "done" } else row)) :=
  ⟨⟨by decide, rfl, by decide⟩,
    yes_to_recurring_schedules_next jan31LocalNow 1000 5 c4Store c4Row (by decide)
      "daily" rfl (Or.inl rfl) 9 0 (by decide)⟩

/-! ### Claim C6 -/

/-- A monthly reminder at 09:00 local in Asia/Tashkent. -/
def c6Reminder : Reminder :=
  { rid := 1, userId := 5, chatId := 6, taskText := "rent", notes := none,
    location := none, schedTime := 0, userTimezone := "Asia/Tashkent",
    status := "pending", initialReminderSent := false, followUpSent := false,
    recurrenceType := some "monthly", recurrenceTime := some "09:00" }

/-- Claim C6: the monthly recurrence targets the same day-of-month in the
next calendar month of the current local time, clamping the day to 28 when
that day-of-month does not exist in the target month; in particular a
monthly reminder with recurrence_time 09:00 fired on a local Jan 31 is
rescheduled for Feb 28 at 09:00 local. -/
theorem monthly_recurrence_clamps_to_28 (now : LocalDT) (hm : now.month ≤ 12) :
    (∃ d : LocalDT, computeNextDate "monthly" now = some d ∧
      d.year = (if now.month = 12 then now.year + 1 else now.year) ∧
      d.month = (if now.month = 12 then 1 else now.month + 1) ∧
      d.day = (if now.day ≤ daysInMonth d.year d.month then now.day else 28) ∧
      d.hour = now.hour ∧ d.minute = now.minute) ∧
    (scheduleNextRecurrence jan31LocalNow c6Reminder emptyStore).map
      (fun p => p.1.rows.map fun x => (x.schedTime, x.status)) =
      some [(toUtcSeconds ⟨2025, 2, 28, 9, 0⟩ "Asia/Tashkent", "pending")] := by
  constructor
  · unfold computeNextDate
    simp only [show ("monthly" = "daily") = False by simp,
      show ("monthly" = "weekdays") = False by simp,
      show ("monthly" = "weekly") = False by simp,
      show ("monthly" = "monthly") = True by simp, if_false, if_true]
    by_cases h12 : now.month = 12
    · have hc : now.month + 1 > 12 := by omega
      simp only [if_pos hc, if_pos h12]
      by_cases hday : now.day ≤ daysInMonth (now.year + 1) 1
      · rw [if_pos hday]
        exact ⟨_, rfl, rfl, rfl, by rw [if_pos hday], rfl, rfl⟩
      · rw [if_neg hday]
        refine ⟨_, rfl, rfl, rfl, ?_, rfl, rfl⟩
        show (28 : Nat) = if now.day ≤ daysInMonth (now.year + 1) 1 then now.day else 28
        rw [if_neg hday]
    · have hc : ¬(now.month + 1 > 12) := by omega
      simp only [if_neg hc, if_neg h12]
      by_cases hday : now.day ≤ daysInMonth now.year (now.month + 1)
      · rw [if_pos hday]
        exact ⟨_, rfl, rfl, rfl, by rw [if_pos hday], rfl, rfl⟩
      · rw [if_neg hday]
        refine ⟨_, rfl, rfl, rfl, ?_, rfl, rfl⟩
        show (28 : Nat) = if now.day ≤ daysInMonth now.year (now.month + 1) then now.day else 28
        rw [if_neg hday]
  · decide

theorem monthly_recurrence_clamps_to_28_witness :
    ((⟨2025, 1, 31, 15, 30⟩ : LocalDT).month ≤ 12) ∧
    ((∃ d : LocalDT, computeNextDate "monthly" ⟨2025, 1, 31, 15, 30⟩ = some d ∧
        d.year = (if (⟨2025, 1, 31, 15, 30⟩ : LocalDT).month = 12 then 2025 + 1 else 2025) ∧
        d.month = (if (⟨2025, 1, 31, 15, 30⟩ : LocalDT).month = 12 then 1 else 1 + 1) ∧
        d.day = (if 31 ≤ daysInMonth d.year d.month then 31 else 28) ∧
        d.hour = 15 ∧ d.minute = 30) ∧
      (scheduleNextRecurrence jan31LocalNow c6Reminder emptyStore).map
        (fun p => p.1.rows.map fun x => (x.schedTime, x.status)) =
        some [(toUtcSeconds ⟨2025, 2, 28, 9, 0⟩ "Asia/Tashkent", "pending")]) :=
  ⟨by decide, monthly_recurrence_clamps_to_28 ⟨2025, 1, 31, 15, 30⟩ (by decide)⟩

/-! ### Claim C8 -/

/-- Claim C8: the /done and /delete command handlers apply their store
mutation to whatever reminder id the caller supplies, with no check that the
reminder belongs to the invoking user: for a reminder owned by a different
user, /done sets its status to 'done' and /delete removes it permanently. -/
theorem done_delete_ignore_owner (s : Store) (hw : WfStore s) (u : Nat)
    (r : Reminder) (hr : r ∈ s.rows) (hown : r.userId ≠ u) :
    rowById (doneCommand u r.rid s) r.rid = some { r with status := "done" } ∧
    rowById (deleteCommand u r.rid s).1 r.rid = none ∧
    (deleteCommand u r.rid s).2 = true := by
  refine ⟨?_, ?_, ?_⟩
  · show rowById (updateRows (fun x => { x with status := "done" }) r.rid s) r.rid = _
    rw [rowById_updateRows (f := fun x => { x with status := "done" })
      (fun _ => rfl) r.rid s r.rid]
    rw [rowById_eq_some_of_mem hw hr]
    simp
  · show rowById (deleteReminder r.rid s).1 r.rid = none
    apply List.find?_eq_none.mpr
    intro x hx
    simpa using (List.mem_filter.mp hx).2
  · exact List.any_eq_true.mpr ⟨r, hr, by simp⟩

/-- A reminder owned by user 42, to be manipulated by user 7. -/
def c8Row : Reminder :=
  { rid := 1, userId := 42, chatId := 6, taskText := "pay", notes := none,
    location := none, schedTime := 50, userTimezone := "UTC",
    status := "pending", initialReminderSent := false, followUpSent := false,
    recurrenceType := none, recurrenceTime := none }

/-- The one-row witness store for C8. -/
def c8Store : Store := ⟨[c8Row], 2⟩

theorem done_delete_ignore_owner_witness :
    (WfStore c8Store ∧ c8Row ∈ c8Store.rows ∧ c8Row.userId ≠ 7) ∧
    (rowById (doneCommand 7 c8Row.rid c8Store) c8Row.rid =
        some { c8Row with status := "done" } ∧
      rowById (deleteCommand 7 c8Row.rid c8Store).1 c8Row.rid = none ∧
      (deleteCommand 7 c8Row.rid c8Store).2 = true) :=
  ⟨⟨⟨by decide, by decide⟩, by decide, by decide⟩,
    done_delete_ignore_owner c8Store ⟨by decide, by decide⟩ 7 c8Row (by decide) (by decide)⟩

/-! ### Claim C10 -/

/-- Claim C10: for a reminder whose recurrence type is non-None but not one
of daily/weekdays/weekly/monthly, `schedule_next_recurrence` returns None and
inserts nothing, while `send_reminder` still treats it as recurring: after a
successful send the occurrence is set to 'completed' and no successor row
exists — the recurrence chain ends silently. -/
theorem unrecognized_recurrence_dead_end (localNow : String → LocalDT) (s : Store)
    (r : Reminder) (rt : String) (hrt : r.recurrenceType = some rt)
    (hd : rt ≠ "daily") (hwd : rt ≠ "weekdays") (hwk : rt ≠ "weekly")
    (hmo : rt ≠ "monthly") :
    scheduleNextRecurrence localNow r s = some (s, none) ∧
    (sendReminder localNow true r s).1 = updateReminderStatus r.rid "completed" s ∧
    (sendReminder localNow true r s).1.rows.length = s.rows.length := by
  have hcnd : computeNextDate rt (localNow r.userTimezone) = none := by
    unfold computeNextDate
    rw [if_neg hd, if_neg hwd, if_neg hwk, if_neg hmo]
  have hsched : scheduleNextRecurrence localNow r s = some (s, none) := by
    unfold scheduleNextRecurrence
    cases hx : r.recurrenceType with
    | none => rfl
    | some rt' =>
      rw [hx] at hrt
      have heq : rt' = rt := Option.some.inj hrt
      subst heq
      by_cases he : rt' = ""
      · simp only [if_pos he]
      · simp only [if_neg he, hcnd]
  have hsend : (sendReminder localNow true r s).1 =
      updateReminderStatus r.rid "completed" s := by
    rw [sendReminder_sent_recurring_some localNow (by rw [hrt]; rfl) hsched]
  refine ⟨hsched, hsend, ?_⟩
  rw [hsend]
  exact List.length_map _ _

/-- A pending reminder with the unrecognized recurrence type "yearly". -/
def c10Row : Reminder :=
  { rid := 1, userId := 5, chatId := 6, taskText := "tax", notes := none,
    location := none, schedTime := 0, userTimezone := "UTC",
    status := "pending", initialReminderSent := false, followUpSent := false,
    recurrenceType := some "yearly", recurrenceTime := some "09:00" }

/-- The one-row witness store for C10. -/
def c10Store : Store := ⟨[c10Row], 2⟩

theorem unrecognized_recurrence_dead_end_witness :
    (c10Row.recurrenceType = some "yearly" ∧ ("yearly" : String) ≠ "daily") ∧
    (scheduleNextRecurrence witnessLocalNow c10Row c10Store = some (c10Store, none) ∧
      (sendReminder witnessLocalNow true c10Row c10Store).1 =
        updateReminderStatus c10Row.rid "completed" c10Store ∧
      (sendReminder witnessLocalNow true c10Row c10Store).1.rows.length =
        c10Store.rows.length) :=
  ⟨⟨rfl, by decide⟩,
    unrecognized_recurrence_dead_end witnessLocalNow c10Store c10Row "yearly" rfl
      (by decide) (by decide) (by decide) (by decide)⟩

end LeviBot
